import Mathlib

/-!
Verification of the enetcpp transport core against its specification.

This file shallowly embeds the parts of the enetcpp source (src/include/enetcpp/time.h,
src/src/peer.cpp, src/src/protocol.cpp) that the verified properties are about.
Machine integers are modelled as `Nat` with explicit reductions modulo `2^16`, `2^32`
or `2^64` at exactly the places where the C++ unsigned arithmetic can wrap.
Intrusive doubly-linked lists are modelled as Lean `List`s (front of the list =
`list_begin`); `list_insert (pos, x)` inserts before `pos`, `list_move` splices a
sublist, both rendered with `take` / `drop` / concatenation.
Allocation (`enet_malloc` / `enet_packet_create`) is assumed to succeed.
-/

namespace ENet

/-- 2 ^ 16, the modulus of `uint16_t` arithmetic. -/
def U16 : Nat := 65536

/-- 2 ^ 32, the modulus of `uint32_t` arithmetic. -/
def U32 : Nat := 4294967296

/-- 2 ^ 64, the modulus of `size_t` arithmetic (LP64). -/
def U64 : Nat := 18446744073709551616

/-- Wrapping `uint32_t` subtraction `a - b` (for `a, b < U32`). -/
def u32sub (a b : Nat) : Nat := (a + (U32 - b % U32)) % U32

/-- `ENet::TIME_OVERFLOW` from time.h. -/
def TIME_OVERFLOW : Nat := 86400000

/-- `ENet::TIME_LESS` from time.h: `a - b >= TIME_OVERFLOW` in `uint32_t` arithmetic. -/
def TIME_LESS (a b : Nat) : Bool := decide (TIME_OVERFLOW ≤ u32sub a b)

/-- `ENet::TIME_GREATER` from time.h: `b - a >= TIME_OVERFLOW`. -/
def TIME_GREATER (a b : Nat) : Bool := decide (TIME_OVERFLOW ≤ u32sub b a)

/-- `ENet::TIME_LESS_EQUAL` from time.h: `!TIME_GREATER(a, b)`. -/
def TIME_LESS_EQUAL (a b : Nat) : Bool := ! TIME_GREATER a b

/-- `ENet::TIME_GREATER_EQUAL` from time.h: `!TIME_LESS(a, b)`. -/
def TIME_GREATER_EQUAL (a b : Nat) : Bool := ! TIME_LESS a b

/-- `ENet::TIME_DIFFERENCE` from time.h:
`a - b >= TIME_OVERFLOW ? b - a : a - b` in `uint32_t` arithmetic. -/
def TIME_DIFFERENCE (a b : Nat) : Nat :=
  if TIME_OVERFLOW ≤ u32sub a b then u32sub b a else u32sub a b

theorem u32sub_eq_int_emod (a b : Nat) (_ha : a < U32) (_hb : b < U32) :
    (u32sub a b : Int) = ((a : Int) - b) % (U32 : Int) := by
  simp only [u32sub, U32] at *
  omega

/-- C8: for all 32-bit unsigned times `a` and `b`, `TIME_LESS a b` holds iff
`(a - b) mod 2^32 ≥ 86400000`, `TIME_GREATER a b` iff `(b - a) mod 2^32 ≥ 86400000`,
`TIME_LESS_EQUAL` and `TIME_GREATER_EQUAL` are the negations of `TIME_GREATER` and
`TIME_LESS`, and `TIME_DIFFERENCE a b` is `(b - a) mod 2^32` when
`(a - b) mod 2^32 ≥ 86400000` and `(a - b) mod 2^32` otherwise. -/
theorem time_macros_spec (a b : Nat) (ha : a < U32) (hb : b < U32) :
    (TIME_LESS a b = true ↔ TIME_OVERFLOW ≤ (((a : Int) - b) % (U32 : Int)).toNat) ∧
    (TIME_GREATER a b = true ↔ TIME_OVERFLOW ≤ (((b : Int) - a) % (U32 : Int)).toNat) ∧
    TIME_LESS_EQUAL a b = ! TIME_GREATER a b ∧
    TIME_GREATER_EQUAL a b = ! TIME_LESS a b ∧
    TIME_DIFFERENCE a b =
      (if TIME_OVERFLOW ≤ (((a : Int) - b) % (U32 : Int)).toNat
       then (((b : Int) - a) % (U32 : Int)).toNat
       else (((a : Int) - b) % (U32 : Int)).toNat) := by
  have hab : (u32sub a b : Int) = ((a : Int) - b) % (U32 : Int) := u32sub_eq_int_emod a b ha hb
  have hba : (u32sub b a : Int) = ((b : Int) - a) % (U32 : Int) := u32sub_eq_int_emod b a hb ha
  have hab' : u32sub a b = (((a : Int) - b) % (U32 : Int)).toNat := by omega
  have hba' : u32sub b a = (((b : Int) - a) % (U32 : Int)).toNat := by omega
  refine ⟨?_, ?_, rfl, rfl, ?_⟩
  · simp [TIME_LESS, hab']
  · simp [TIME_GREATER, hba']
  · simp only [TIME_DIFFERENCE, hab', hba']

/-- Witness for `time_macros_spec` at the concrete input `a = 5`, `b = 3`. -/
theorem time_macros_spec_witness :
    TIME_LESS 5 3 = true ↔ TIME_OVERFLOW ≤ (((5 : Int) - 3) % (U32 : Int)).toNat :=
  (time_macros_spec 5 3 (by decide) (by decide)).1

/-- The `ENetPeerState` enumeration from enetcpp.h. -/
inductive PeerState where
  | disconnected
  | connecting
  | acknowledgingConnect
  | connectionPending
  | connectionSucceeded
  | connected
  | disconnectLater
  | disconnecting
  | acknowledgingDisconnect
  | zombie
deriving Repr, DecidableEq

/-- The subset of the `ENetPeer` fields that `ENet::peer_throttle` and the
round-trip-time section of `enet_protocol_handle_acknowledge` read and write
(all of them `uint32_t` in the source). -/
structure PeerRtt where
  packetThrottle : Nat
  packetThrottleLimit : Nat
  packetThrottleAcceleration : Nat
  packetThrottleDeceleration : Nat
  lastRoundTripTime : Nat
  lastRoundTripTimeVariance : Nat
  lastReceiveTime : Nat
  roundTripTime : Nat
  roundTripTimeVariance : Nat
deriving Repr, DecidableEq

/-- `ENet::peer_throttle` from peer.cpp (lines 30-62).  Returns the updated peer
together with the C `int` return value. -/
def peer_throttle (peer : PeerRtt) (rtt : Nat) : PeerRtt × Int :=
  if peer.lastRoundTripTime ≤ peer.lastRoundTripTimeVariance then
    ({ peer with packetThrottle := peer.packetThrottleLimit }, 0)
  else if rtt ≤ peer.lastRoundTripTime then
    let t := (peer.packetThrottle + peer.packetThrottleAcceleration) % U32
    ({ peer with packetThrottle := if peer.packetThrottleLimit < t then peer.packetThrottleLimit else t }, 1)
  else if (peer.lastRoundTripTime + 2 * peer.lastRoundTripTimeVariance) % U32 < rtt then
    ({ peer with packetThrottle :=
        if peer.packetThrottleDeceleration < peer.packetThrottle then
          peer.packetThrottle - peer.packetThrottleDeceleration
        else 0 }, -1)
  else
    (peer, 0)

/-- C6: `peer_throttle` behaviour, branch by branch.  If
`lastRoundTripTime ≤ lastRoundTripTimeVariance` the throttle snaps to
`packetThrottleLimit` (returning 0); else if `rtt ≤ lastRoundTripTime` the throttle
grows by `packetThrottleAcceleration` capped at the limit and the function returns 1;
else if `rtt > lastRoundTripTime + 2 * lastRoundTripTimeVariance` the throttle
shrinks by `min deceleration throttle` (never below zero) and the function returns
-1; in every remaining case the function returns 0 and the throttle is unchanged.
The hypothesis `hsum` rules out `uint32_t` wrap of the deceleration threshold. -/
theorem peer_throttle_spec (peer : PeerRtt) (rtt : Nat)
    (hsum : peer.lastRoundTripTime + 2 * peer.lastRoundTripTimeVariance < U32) :
    (peer.lastRoundTripTime ≤ peer.lastRoundTripTimeVariance →
      peer_throttle peer rtt = ({ peer with packetThrottle := peer.packetThrottleLimit }, 0)) ∧
    (peer.lastRoundTripTimeVariance < peer.lastRoundTripTime → rtt ≤ peer.lastRoundTripTime →
      peer_throttle peer rtt =
        ({ peer with
            packetThrottle :=
              min ((peer.packetThrottle + peer.packetThrottleAcceleration) % U32)
                peer.packetThrottleLimit }, 1)) ∧
    (peer.lastRoundTripTimeVariance < peer.lastRoundTripTime →
      peer.lastRoundTripTime + 2 * peer.lastRoundTripTimeVariance < rtt →
      peer_throttle peer rtt =
        ({ peer with
            packetThrottle :=
              peer.packetThrottle - min peer.packetThrottleDeceleration peer.packetThrottle }, -1)) ∧
    (peer.lastRoundTripTimeVariance < peer.lastRoundTripTime → peer.lastRoundTripTime < rtt →
      rtt ≤ peer.lastRoundTripTime + 2 * peer.lastRoundTripTimeVariance →
      peer_throttle peer rtt = (peer, 0)) := by
  have hmod : (peer.lastRoundTripTime + 2 * peer.lastRoundTripTimeVariance) % U32 =
      peer.lastRoundTripTime + 2 * peer.lastRoundTripTimeVariance := Nat.mod_eq_of_lt hsum
  refine ⟨?_, ?_, ?_, ?_⟩
  · intro h1
    simp [peer_throttle, h1]
  · intro h1 h2
    have h1' : ¬ peer.lastRoundTripTime ≤ peer.lastRoundTripTimeVariance := by omega
    simp only [peer_throttle, if_neg h1', if_pos h2]
    congr 1
    congr 1
    rcases Nat.lt_or_ge peer.packetThrottleLimit
        ((peer.packetThrottle + peer.packetThrottleAcceleration) % U32) with h | h
    · rw [if_pos h, Nat.min_eq_right (Nat.le_of_lt h)]
    · rw [if_neg (by omega), Nat.min_eq_left h]
  · intro h1 h2
    have h1' : ¬ peer.lastRoundTripTime ≤ peer.lastRoundTripTimeVariance := by omega
    have h2' : ¬ rtt ≤ peer.lastRoundTripTime := by omega
    simp only [peer_throttle, if_neg h1', if_neg h2', hmod, if_pos h2]
    congr 1
    congr 1
    rcases Nat.lt_or_ge peer.packetThrottleDeceleration peer.packetThrottle with h | h
    · rw [if_pos h, Nat.min_eq_left (Nat.le_of_lt h)]
    · rw [if_neg (by omega), Nat.min_eq_right h]
      omega
  · intro h1 h2 h3
    have h1' : ¬ peer.lastRoundTripTime ≤ peer.lastRoundTripTimeVariance := by omega
    have h2' : ¬ rtt ≤ peer.lastRoundTripTime := by omega
    have h3' : ¬ (peer.lastRoundTripTime + 2 * peer.lastRoundTripTimeVariance) % U32 < rtt := by
      omega
    simp [peer_throttle, h1', h2', h3']

/-- Witness for `peer_throttle_spec`: at the concrete peer below with `rtt = 50`
the acceleration branch fires and the throttle grows from 10 to 12. -/
theorem peer_throttle_spec_witness :
    peer_throttle ⟨10, 32, 2, 2, 100, 20, 0, 0, 0⟩ 50 =
      ({ packetThrottle := min ((10 + 2) % U32) 32, packetThrottleLimit := 32,
         packetThrottleAcceleration := 2, packetThrottleDeceleration := 2,
         lastRoundTripTime := 100, lastRoundTripTimeVariance := 20,
         lastReceiveTime := 0, roundTripTime := 0, roundTripTimeVariance := 0 }, 1) :=
  (peer_throttle_spec ⟨10, 32, 2, 2, 100, 20, 0, 0, 0⟩ 50 (by decide)).2.1
    (by decide) (by decide)

/-- The 16-to-32-bit sent-time reconstruction at the top of
`enet_protocol_handle_acknowledge` (protocol.cpp lines 1026-1031): the 16-bit
field is stitched to the upper half of `host->serviceTime`, and `0x10000` is
subtracted (wrapping, `uint32_t`) when the bit-15 comparison indicates the low
half wrapped. -/
def enet_protocol_handle_acknowledge_stitch (serviceTime receivedSentTime16 : Nat) : Nat :=
  let r := receivedSentTime16 ||| (serviceTime &&& 0xFFFF0000)
  if serviceTime &&& 0x8000 < r &&& 0x8000 then u32sub r 0x10000 else r

/-- The round-trip-time section of `enet_protocol_handle_acknowledge`
(protocol.cpp lines 1021-1064): early exit for `DISCONNECTED` / `ZOMBIE` peers,
sent-time reconstruction, drop of acknowledgements from the future,
`roundTripTime = max(diff, 1)`, and the EWMA update of the peer's round-trip
mean and variance (first receive initialises them instead).  The remainder of
the handler (epoch tracking, retiring the acknowledged command, state
transitions) does not touch the fields modelled here. -/
def enet_protocol_handle_acknowledge_rtt (state : PeerState) (serviceTime : Nat)
    (receivedSentTime16 : Nat) (peer : PeerRtt) : PeerRtt :=
  if state = PeerState.disconnected ∨ state = PeerState.zombie then peer
  else
    let receivedSentTime := enet_protocol_handle_acknowledge_stitch serviceTime receivedSentTime16
    if TIME_LESS serviceTime receivedSentTime then peer
    else
      let roundTripTime := max (TIME_DIFFERENCE serviceTime receivedSentTime) 1
      if 0 < peer.lastReceiveTime then
        let p1 := (peer_throttle peer roundTripTime).1
        let v1 := p1.roundTripTimeVariance - p1.roundTripTimeVariance / 4
        if p1.roundTripTime ≤ roundTripTime then
          let diff := roundTripTime - p1.roundTripTime
          { p1 with
              roundTripTimeVariance := (v1 + diff / 4) % U32,
              roundTripTime := (p1.roundTripTime + diff / 8) % U32 }
        else
          let diff := p1.roundTripTime - roundTripTime
          { p1 with
              roundTripTimeVariance := (v1 + diff / 4) % U32,
              roundTripTime := p1.roundTripTime - diff / 8 }
      else
        { peer with
            roundTripTime := roundTripTime,
            roundTripTimeVariance := (roundTripTime + 1) / 2 }

theorem stitch_lt_u32 (serviceTime receivedSentTime16 : Nat) (hsvc : serviceTime < U32)
    (h16 : receivedSentTime16 < U16) :
    enet_protocol_handle_acknowledge_stitch serviceTime receivedSentTime16 < U32 := by
  unfold enet_protocol_handle_acknowledge_stitch
  have hr : receivedSentTime16 ||| (serviceTime &&& 0xFFFF0000) < U32 := by
    have h1 : receivedSentTime16 < 2 ^ 32 := lt_of_lt_of_le h16 (by norm_num [U16])
    have h2 : serviceTime &&& 0xFFFF0000 < 2 ^ 32 :=
      lt_of_le_of_lt Nat.and_le_left (lt_of_lt_of_le hsvc (by norm_num [U32]))
    have := Nat.or_lt_two_pow h1 h2
    calc receivedSentTime16 ||| (serviceTime &&& 0xFFFF0000) < 2 ^ 32 := this
    _ ≤ U32 := by norm_num [U32]
  by_cases h : serviceTime &&& 0x8000 <
      (receivedSentTime16 ||| (serviceTime &&& 0xFFFF0000)) &&& 0x8000
  · simp only [if_pos h]
    exact Nat.mod_lt _ (by decide)
  · simp only [if_neg h]
    exact hr

theorem time_difference_of_not_less (a b : Nat) (ha : a < U32) (hb : b < U32)
    (h : TIME_LESS a b = false) :
    TIME_DIFFERENCE a b = (((a : Int) - b) % (U32 : Int)).toNat := by
  have he := u32sub_eq_int_emod a b ha hb
  have h' : ¬ TIME_OVERFLOW ≤ u32sub a b := by
    simpa [TIME_LESS] using h
  simp only [TIME_DIFFERENCE, if_neg h']
  omega

theorem peer_throttle_preserves_rtt (peer : PeerRtt) (rtt : Nat) :
    (peer_throttle peer rtt).1.roundTripTime = peer.roundTripTime ∧
    (peer_throttle peer rtt).1.roundTripTimeVariance = peer.roundTripTimeVariance := by
  unfold peer_throttle
  split
  · exact ⟨rfl, rfl⟩
  · split
    · exact ⟨rfl, rfl⟩
    · split
      · exact ⟨rfl, rfl⟩
      · exact ⟨rfl, rfl⟩

/-- C5: on receipt of an ACKNOWLEDGE command by a peer that is neither
`DISCONNECTED` nor `ZOMBIE`, the 16-bit received sent time is stitched to the
upper half of `serviceTime` (`enet_protocol_handle_acknowledge_stitch`); if the
reconstructed time lies in the future of `serviceTime` the command is ignored
with no state change; otherwise `rtt = max(1, serviceTime - receivedSentTime)`
(32-bit wrap difference), and if the peer has received before then
`roundTripTimeVariance -= roundTripTimeVariance/4`, `diff = |rtt - roundTripTime|`,
`roundTripTimeVariance += diff/4`, and `roundTripTime` moves toward `rtt` by
`diff/8` (added when `rtt ≥` the mean, subtracted otherwise); on the first
receive `roundTripTime = rtt` and `roundTripTimeVariance = (rtt + 1)/2`. -/
theorem enet_protocol_handle_acknowledge_rtt_spec (state : PeerState)
    (serviceTime sentTime16 rst rtt : Nat) (peer : PeerRtt)
    (hs1 : state ≠ PeerState.disconnected) (hs2 : state ≠ PeerState.zombie)
    (hsvc : serviceTime < U32) (h16 : sentTime16 < U16)
    (hmean : peer.roundTripTime < U32) (hvar : peer.roundTripTimeVariance < U32)
    (hrst : rst = enet_protocol_handle_acknowledge_stitch serviceTime sentTime16)
    (hrtt : rtt = max 1 (((serviceTime : Int) - rst) % (U32 : Int)).toNat) :
    (TIME_LESS serviceTime rst = true →
      enet_protocol_handle_acknowledge_rtt state serviceTime sentTime16 peer = peer) ∧
    (TIME_LESS serviceTime rst = false → peer.lastReceiveTime = 0 →
      enet_protocol_handle_acknowledge_rtt state serviceTime sentTime16 peer =
        { peer with roundTripTime := rtt, roundTripTimeVariance := (rtt + 1) / 2 }) ∧
    (TIME_LESS serviceTime rst = false → 0 < peer.lastReceiveTime →
      enet_protocol_handle_acknowledge_rtt state serviceTime sentTime16 peer =
        (let p1 := (peer_throttle peer rtt).1
         let diff := ((rtt : Int) - (p1.roundTripTime : Int)).natAbs
         { p1 with
             roundTripTimeVariance :=
               p1.roundTripTimeVariance - p1.roundTripTimeVariance / 4 + diff / 4,
             roundTripTime :=
               if p1.roundTripTime ≤ rtt then p1.roundTripTime + diff / 8
               else p1.roundTripTime - diff / 8 })) := by
  have hst : ¬ (state = PeerState.disconnected ∨ state = PeerState.zombie) := by
    rintro (h | h) <;> [exact hs1 h; exact hs2 h]
  have hstl : enet_protocol_handle_acknowledge_stitch serviceTime sentTime16 < U32 :=
    stitch_lt_u32 serviceTime sentTime16 hsvc h16
  refine ⟨?_, ?_, ?_⟩
  · intro hA
    rw [enet_protocol_handle_acknowledge_rtt, if_neg hst]
    simp only [← hrst, hA, if_true]
  · intro hA hB
    have hTD : TIME_DIFFERENCE serviceTime rst = (((serviceTime : Int) - rst) % (U32 : Int)).toNat := by
      subst hrst
      exact time_difference_of_not_less _ _ hsvc hstl hA
    rw [enet_protocol_handle_acknowledge_rtt, if_neg hst]
    simp only [← hrst, hA, Bool.false_eq_true, if_false, hTD, hB, Nat.lt_irrefl, if_false]
    rw [Nat.max_comm, ← hrtt]
  · intro hA hB
    have hTD : TIME_DIFFERENCE serviceTime rst = (((serviceTime : Int) - rst) % (U32 : Int)).toNat := by
      subst hrst
      exact time_difference_of_not_less _ _ hsvc hstl hA
    have hrtt' : rtt = max (TIME_DIFFERENCE serviceTime rst) 1 := by
      rw [hTD, Nat.max_comm, hrtt]
    have hrttU : rtt < U32 := by
      have h0 : (0 : Int) ≤ ((serviceTime : Int) - rst) % (U32 : Int) :=
        Int.emod_nonneg _ (by norm_num [U32])
      have h1 : ((serviceTime : Int) - rst) % (U32 : Int) < (U32 : Int) :=
        Int.emod_lt_of_pos _ (by norm_num [U32])
      have h2 : (1 : Nat) < U32 := by norm_num [U32]
      omega
    have hpres := peer_throttle_preserves_rtt peer rtt
    rw [enet_protocol_handle_acknowledge_rtt, if_neg hst]
    simp only [← hrst, hA, Bool.false_eq_true, if_false, ← hrtt', hB, if_true]
    rcases le_or_lt (peer_throttle peer rtt).1.roundTripTime rtt with hle | hlt
    · rw [if_pos hle, if_pos hle]
      have hd : ((rtt : Int) - ((peer_throttle peer rtt).1.roundTripTime : Int)).natAbs =
          rtt - (peer_throttle peer rtt).1.roundTripTime := by omega
      rw [hd]
      have hm1 : ((peer_throttle peer rtt).1.roundTripTimeVariance -
            (peer_throttle peer rtt).1.roundTripTimeVariance / 4 +
            (rtt - (peer_throttle peer rtt).1.roundTripTime) / 4) % U32 =
          (peer_throttle peer rtt).1.roundTripTimeVariance -
            (peer_throttle peer rtt).1.roundTripTimeVariance / 4 +
            (rtt - (peer_throttle peer rtt).1.roundTripTime) / 4 := by
        rw [Nat.mod_eq_of_lt]
        omega
      have hm2 : ((peer_throttle peer rtt).1.roundTripTime +
            (rtt - (peer_throttle peer rtt).1.roundTripTime) / 8) % U32 =
          (peer_throttle peer rtt).1.roundTripTime +
            (rtt - (peer_throttle peer rtt).1.roundTripTime) / 8 := by
        rw [Nat.mod_eq_of_lt]
        omega
      rw [hm1, hm2]
    · rw [if_neg (by omega), if_neg (by omega)]
      have hd : ((rtt : Int) - ((peer_throttle peer rtt).1.roundTripTime : Int)).natAbs =
          (peer_throttle peer rtt).1.roundTripTime - rtt := by omega
      rw [hd]
      have hm1 : ((peer_throttle peer rtt).1.roundTripTimeVariance -
            (peer_throttle peer rtt).1.roundTripTimeVariance / 4 +
            ((peer_throttle peer rtt).1.roundTripTime - rtt) / 4) % U32 =
          (peer_throttle peer rtt).1.roundTripTimeVariance -
            (peer_throttle peer rtt).1.roundTripTimeVariance / 4 +
            ((peer_throttle peer rtt).1.roundTripTime - rtt) / 4 := by
        rw [Nat.mod_eq_of_lt]
        omega
      rw [hm1]

/-- Witness for `enet_protocol_handle_acknowledge_rtt_spec`: a connected peer,
`serviceTime = 1000`, sent time 600, first receive: the mean initialises to 400
and the variance to 200. -/
theorem enet_protocol_handle_acknowledge_rtt_spec_witness :
    enet_protocol_handle_acknowledge_rtt PeerState.connected 1000 600
        ⟨10, 32, 2, 2, 100, 20, 0, 500, 0⟩ =
      { packetThrottle := 10, packetThrottleLimit := 32,
        packetThrottleAcceleration := 2, packetThrottleDeceleration := 2,
        lastRoundTripTime := 100, lastRoundTripTimeVariance := 20,
        lastReceiveTime := 0, roundTripTime := 400, roundTripTimeVariance := 200 } := by
  have h := (enet_protocol_handle_acknowledge_rtt_spec PeerState.connected 1000 600 600 400
      ⟨10, 32, 2, 2, 100, 20, 0, 500, 0⟩ (by decide) (by decide) (by decide) (by decide)
      (by decide) (by decide) (by decide) (by decide)).2.1 (by decide) (by decide)
  simpa using h

/-- `ENET_PEER_RELIABLE_WINDOW_SIZE` (0x1000). -/
def PEER_RELIABLE_WINDOW_SIZE : Nat := 4096

/-- `ENET_PEER_RELIABLE_WINDOWS`. -/
def PEER_RELIABLE_WINDOWS : Nat := 16

/-- `ENET_PEER_FREE_RELIABLE_WINDOWS`. -/
def PEER_FREE_RELIABLE_WINDOWS : Nat := 8

/-- `sizeof(ENet::ProtocolAcknowledge)` (packed: 4-byte command header + two
`uint16_t` fields). -/
def sizeofProtocolAcknowledge : Nat := 8

/-- A pending acknowledgement (`ENetAcknowledgement`): the datagram's sent time
and a snapshot of the acknowledged command's header. -/
structure Acknowledgement where
  sentTime : Nat
  commandChannelID : Nat
  commandReliableSequenceNumber : Nat
deriving Repr, DecidableEq

/-- The subset of the `ENetPeer` fields that `ENet::peer_queue_acknowledgement`
reads and writes: the channel count, each channel's
`incomingReliableSequenceNumber`, the running `outgoingDataTotal`, and the
acknowledgement queue. -/
structure AckPeer where
  channelCount : Nat
  channels : List Nat
  outgoingDataTotal : Nat
  acknowledgements : List Acknowledgement
deriving Repr, DecidableEq

/-- The success path of `peer_queue_acknowledgement` (peer.cpp lines 545-558):
allocate the acknowledgement, account `sizeof(ENetProtocolAcknowledge)` into
`outgoingDataTotal` (`uint32_t`), and append to the peer's queue. -/
def peer_queue_acknowledgement_append (peer : AckPeer)
    (channelID reliableSequenceNumber sentTime : Nat) : AckPeer :=
  { peer with
      outgoingDataTotal := (peer.outgoingDataTotal + sizeofProtocolAcknowledge) % U32,
      acknowledgements :=
        peer.acknowledgements ++ [⟨sentTime, channelID, reliableSequenceNumber⟩] }

/-- `ENet::peer_queue_acknowledgement` from peer.cpp (lines 522-559).  `none`
models the `nullptr` return (nothing queued, no field changed); `some` carries
the updated peer. -/
def peer_queue_acknowledgement (peer : AckPeer)
    (channelID reliableSequenceNumber sentTime : Nat) : Option AckPeer :=
  if channelID < peer.channelCount then
    let irsn := peer.channels.getD channelID 0
    let reliableWindow0 := reliableSequenceNumber / PEER_RELIABLE_WINDOW_SIZE
    let currentWindow := irsn / PEER_RELIABLE_WINDOW_SIZE
    let reliableWindow :=
      if reliableSequenceNumber < irsn then reliableWindow0 + PEER_RELIABLE_WINDOWS
      else reliableWindow0
    if currentWindow + PEER_FREE_RELIABLE_WINDOWS - 1 ≤ reliableWindow ∧
        reliableWindow ≤ currentWindow + PEER_FREE_RELIABLE_WINDOWS then
      none
    else
      some (peer_queue_acknowledgement_append peer channelID reliableSequenceNumber sentTime)
  else
    some (peer_queue_acknowledgement_append peer channelID reliableSequenceNumber sentTime)

/-- C9: for every peer and every received command whose channel id is within the
peer's channel count, if the command's reliable window (lifted by
`PEER_RELIABLE_WINDOWS = 16` when its sequence number is numerically below the
channel's `incomingReliableSequenceNumber`) lies in the two-window band
`[currentWindow + PEER_FREE_RELIABLE_WINDOWS - 1, currentWindow + PEER_FREE_RELIABLE_WINDOWS]`,
then `peer_queue_acknowledgement` returns null; in the model `none` is produced
before any state is built, so the acknowledgement queue and `outgoingDataTotal`
are left unchanged and no acknowledgement is generated. -/
theorem peer_queue_acknowledgement_window_band (peer : AckPeer)
    (channelID reliableSequenceNumber sentTime : Nat)
    (hch : channelID < peer.channelCount)
    (hband :
      (let irsn := peer.channels.getD channelID 0
       let reliableWindow :=
         if reliableSequenceNumber < irsn then
           reliableSequenceNumber / PEER_RELIABLE_WINDOW_SIZE + PEER_RELIABLE_WINDOWS
         else reliableSequenceNumber / PEER_RELIABLE_WINDOW_SIZE
       let currentWindow := irsn / PEER_RELIABLE_WINDOW_SIZE
       currentWindow + PEER_FREE_RELIABLE_WINDOWS - 1 ≤ reliableWindow ∧
         reliableWindow ≤ currentWindow + PEER_FREE_RELIABLE_WINDOWS)) :
    peer_queue_acknowledgement peer channelID reliableSequenceNumber sentTime = none := by
  simp only [peer_queue_acknowledgement, if_pos hch]
  simp only at hband
  rw [if_pos hband]

/-- Witness for `peer_queue_acknowledgement_window_band`: channel 0 at baseline
sequence number 0, a command with sequence number `7 * 4096` falls in the
forbidden band and no acknowledgement is queued. -/
theorem peer_queue_acknowledgement_window_band_witness :
    peer_queue_acknowledgement ⟨1, [0], 0, []⟩ 0 28672 5 = none :=
  peer_queue_acknowledgement_window_band ⟨1, [0], 0, []⟩ 0 28672 5 (by decide) (by decide)

/-- The window bookkeeping fields of an `ENetChannel`: the
`usedReliableWindows` bitmap (`uint16_t`) and the 16-entry `reliableWindows`
in-flight count table (each entry `uint16_t`). -/
structure ChannelWindows where
  usedReliableWindows : Nat
  reliableWindows : List Nat
deriving Repr, DecidableEq

/-- Channel window state after connect: bitmap zero, all counts zero
(protocol.cpp lines 418-430, `enet_protocol_handle_connect` channel reset, and
host.cpp channel initialisation). -/
def channelWindowsInit : ChannelWindows := ⟨0, List.replicate 16 0⟩

/-- The first-send-attempt bookkeeping from
`enet_protocol_check_outgoing_commands` (protocol.cpp lines 1752-1758): when a
reliable command is put on the wire for the first time
(`sendAttempts < 1`), `usedReliableWindows |= 1 << reliableWindow` and
`++reliableWindows[reliableWindow]` (a `uint16_t` increment), where
`reliableWindow = reliableSequenceNumber / PEER_RELIABLE_WINDOW_SIZE`. -/
def checkOutgoingMarkFirstSend (c : ChannelWindows) (reliableSequenceNumber : Nat) :
    ChannelWindows :=
  let reliableWindow := reliableSequenceNumber / PEER_RELIABLE_WINDOW_SIZE
  { usedReliableWindows := c.usedReliableWindows ||| (1 <<< reliableWindow),
    reliableWindows :=
      c.reliableWindows.set reliableWindow
        ((c.reliableWindows.getD reliableWindow 0 + 1) % U16) }

/-- The window bookkeeping of `enet_protocol_remove_sent_reliable_command`
(protocol.cpp lines 281-293), reached when `channelID < peer->channelCount`:
if the count at the acknowledged command's window is positive, decrement it,
and clear the window's `usedReliableWindows` bit exactly when the count
reaches zero. -/
def removeSentReliableWindow (c : ChannelWindows) (reliableSequenceNumber : Nat) :
    ChannelWindows :=
  let reliableWindow := reliableSequenceNumber / PEER_RELIABLE_WINDOW_SIZE
  if 0 < c.reliableWindows.getD reliableWindow 0 then
    let cnt := c.reliableWindows.getD reliableWindow 0 - 1
    { usedReliableWindows :=
        if cnt = 0 then c.usedReliableWindows &&& (65535 ^^^ (1 <<< reliableWindow))
        else c.usedReliableWindows,
      reliableWindows := c.reliableWindows.set reliableWindow cnt }
  else
    c

/-- The channel window states reachable through the two operations that touch
`usedReliableWindows` and `reliableWindows`.  The side condition on `send`
(the window's count has not saturated the `uint16_t` range) over-approximates
the real sender, where a window spans only 4096 sequence numbers and
`windowWrap` blocks re-entering a window whose bit is still set, so no window
ever holds 65535 in-flight first sends. -/
inductive ChannelWindowsReachable : ChannelWindows → Prop where
  | init : ChannelWindowsReachable channelWindowsInit
  | send (c : ChannelWindows) (rsn : Nat) (h : ChannelWindowsReachable c)
      (hrsn : rsn < U16)
      (hcap : c.reliableWindows.getD (rsn / PEER_RELIABLE_WINDOW_SIZE) 0 < 65535) :
      ChannelWindowsReachable (checkOutgoingMarkFirstSend c rsn)
  | retire (c : ChannelWindows) (rsn : Nat) (h : ChannelWindowsReachable c)
      (hrsn : rsn < U16) :
      ChannelWindowsReachable (removeSentReliableWindow c rsn)

/-- The strengthened invariant carried through the reachability induction:
well-formed shape (16 windows, 16-bit bitmap) plus the claimed bit/count
correspondence. -/
def ChannelWindowsInv (c : ChannelWindows) : Prop :=
  c.reliableWindows.length = 16 ∧ c.usedReliableWindows < U16 ∧
    ∀ w, w < 16 → (c.usedReliableWindows.testBit w ↔ 0 < c.reliableWindows.getD w 0)

theorem getD_set_self (l : List Nat) (i : Nat) (v : Nat) (h : i < l.length) :
    (l.set i v).getD i 0 = v := by
  rw [List.getD_eq_getElem?_getD, List.getElem?_set_self h]
  rfl

theorem getD_set_ne (l : List Nat) (i j : Nat) (v : Nat) (h : i ≠ j) :
    (l.set i v).getD j 0 = l.getD j 0 := by
  rw [List.getD_eq_getElem?_getD, List.getElem?_set_ne h, ← List.getD_eq_getElem?_getD]

theorem testBit_shiftLeft_one_self (w : Nat) : (1 <<< w).testBit w = true := by
  rw [Nat.shiftLeft_eq, Nat.one_mul]
  exact Nat.testBit_two_pow_self

theorem testBit_shiftLeft_one_ne (w v : Nat) (h : v ≠ w) : (1 <<< w).testBit v = false := by
  rw [Nat.shiftLeft_eq, Nat.one_mul]
  exact Nat.testBit_two_pow_of_ne (Ne.symm h)

theorem channelWindowsInv_init : ChannelWindowsInv channelWindowsInit := by
  refine ⟨by simp [channelWindowsInit], by decide, ?_⟩
  intro w hw
  simp only [channelWindowsInit, List.getD_eq_getElem?_getD, List.getElem?_replicate,
    if_pos hw, Nat.zero_testBit]
  simp

theorem channelWindowsInv_send (c : ChannelWindows) (rsn : Nat)
    (hrsn : rsn < U16)
    (hcap : c.reliableWindows.getD (rsn / PEER_RELIABLE_WINDOW_SIZE) 0 < 65535)
    (hinv : ChannelWindowsInv c) :
    ChannelWindowsInv (checkOutgoingMarkFirstSend c rsn) := by
  obtain ⟨hlen, hused, hbit⟩ := hinv
  have hw : rsn / PEER_RELIABLE_WINDOW_SIZE < 16 := by
    simp only [PEER_RELIABLE_WINDOW_SIZE]
    simp only [U16] at hrsn
    omega
  refine ⟨?_, ?_, ?_⟩
  · simpa [checkOutgoingMarkFirstSend] using hlen
  · show c.usedReliableWindows ||| (1 <<< (rsn / PEER_RELIABLE_WINDOW_SIZE)) < U16
    have h1 : c.usedReliableWindows < 2 ^ 16 := by simpa [U16] using hused
    have h2 : 1 <<< (rsn / PEER_RELIABLE_WINDOW_SIZE) < 2 ^ 16 := by
      rw [Nat.shiftLeft_eq, Nat.one_mul]
      exact Nat.pow_lt_pow_right (by omega) hw
    have h3 := Nat.or_lt_two_pow h1 h2
    simpa [U16] using h3
  · intro w hw'
    show (c.usedReliableWindows ||| (1 <<< (rsn / PEER_RELIABLE_WINDOW_SIZE))).testBit w = true ↔
      0 < (c.reliableWindows.set (rsn / PEER_RELIABLE_WINDOW_SIZE)
            ((c.reliableWindows.getD (rsn / PEER_RELIABLE_WINDOW_SIZE) 0 + 1) % U16)).getD w 0
    rcases eq_or_ne w (rsn / PEER_RELIABLE_WINDOW_SIZE) with heq | hne
    · rw [heq, getD_set_self _ _ _ (by omega)]
      have hm : (c.reliableWindows.getD (rsn / PEER_RELIABLE_WINDOW_SIZE) 0 + 1) % U16 =
          c.reliableWindows.getD (rsn / PEER_RELIABLE_WINDOW_SIZE) 0 + 1 := by
        apply Nat.mod_eq_of_lt
        simp only [U16]
        omega
      rw [hm, Nat.testBit_or, testBit_shiftLeft_one_self]
      simp
    · rw [getD_set_ne _ _ _ _ (Ne.symm hne), Nat.testBit_or,
        testBit_shiftLeft_one_ne _ _ hne, Bool.or_false]
      exact hbit w hw'

theorem channelWindowsInv_retire (c : ChannelWindows) (rsn : Nat)
    (hinv : ChannelWindowsInv c) :
    ChannelWindowsInv (removeSentReliableWindow c rsn) := by
  obtain ⟨hlen, hused, hbit⟩ := hinv
  by_cases h0 : 0 < c.reliableWindows.getD (rsn / PEER_RELIABLE_WINDOW_SIZE) 0
  · have hw : rsn / PEER_RELIABLE_WINDOW_SIZE < 16 := by
      by_contra h
      rw [List.getD_eq_getElem?_getD, List.getElem?_eq_none (by omega)] at h0
      simp at h0
    rw [removeSentReliableWindow]
    simp only [if_pos h0]
    refine ⟨by simpa using hlen, ?_, ?_⟩
    · show (if c.reliableWindows.getD (rsn / PEER_RELIABLE_WINDOW_SIZE) 0 - 1 = 0 then
          c.usedReliableWindows &&& (65535 ^^^ (1 <<< (rsn / PEER_RELIABLE_WINDOW_SIZE)))
          else c.usedReliableWindows) < U16
      split
      · exact lt_of_le_of_lt Nat.and_le_left hused
      · exact hused
    · intro w hw'
      show (if c.reliableWindows.getD (rsn / PEER_RELIABLE_WINDOW_SIZE) 0 - 1 = 0 then
            c.usedReliableWindows &&& (65535 ^^^ (1 <<< (rsn / PEER_RELIABLE_WINDOW_SIZE)))
            else c.usedReliableWindows).testBit w = true ↔
          0 < (c.reliableWindows.set (rsn / PEER_RELIABLE_WINDOW_SIZE)
                (c.reliableWindows.getD (rsn / PEER_RELIABLE_WINDOW_SIZE) 0 - 1)).getD w 0
      rcases eq_or_ne w (rsn / PEER_RELIABLE_WINDOW_SIZE) with heq | hne
      · rw [heq, getD_set_self _ _ _ (by omega)]
        by_cases hz : c.reliableWindows.getD (rsn / PEER_RELIABLE_WINDOW_SIZE) 0 - 1 = 0
        · rw [if_pos hz, hz]
          have hmaskbit : (65535 ^^^ (1 <<< (rsn / PEER_RELIABLE_WINDOW_SIZE))).testBit
              (rsn / PEER_RELIABLE_WINDOW_SIZE) = false := by
            rw [Nat.testBit_xor, testBit_shiftLeft_one_self]
            have h65535 : (65535 : Nat).testBit (rsn / PEER_RELIABLE_WINDOW_SIZE) = true := by
              have h16 : rsn / PEER_RELIABLE_WINDOW_SIZE < 16 := hw
              interval_cases h : (rsn / PEER_RELIABLE_WINDOW_SIZE) <;> decide
            rw [h65535]
            rfl
          simp [Nat.testBit_and, hmaskbit]
        · rw [if_neg hz]
          constructor
          · intro _
            omega
          · intro _
            exact (hbit _ hw).2 h0
      · rw [getD_set_ne _ _ _ _ (Ne.symm hne)]
        have hx : (if c.reliableWindows.getD (rsn / PEER_RELIABLE_WINDOW_SIZE) 0 - 1 = 0 then
              c.usedReliableWindows &&& (65535 ^^^ (1 <<< (rsn / PEER_RELIABLE_WINDOW_SIZE)))
              else c.usedReliableWindows).testBit w = c.usedReliableWindows.testBit w := by
          split
          · have hmask : (65535 ^^^ (1 <<< (rsn / PEER_RELIABLE_WINDOW_SIZE))).testBit w = true := by
              rw [Nat.testBit_xor, testBit_shiftLeft_one_ne _ _ hne]
              have h65535 : (65535 : Nat).testBit w = true := by
                have h16 : w < 16 := hw'
                interval_cases w <;> decide
              rw [h65535]
              rfl
            simp [Nat.testBit_and, hmask]
          · rfl
        rw [hx]
        exact hbit w hw'
  · rw [removeSentReliableWindow]
    simp only [if_neg h0]
    exact ⟨hlen, hused, hbit⟩

/-- C2: in every reachable state of a channel's window bookkeeping, bit `w` of
`usedReliableWindows` is set if and only if `reliableWindows[w] > 0`: the first
send attempt of a reliable command sets the bit and increments the count at its
window, and retiring an acknowledged reliable command decrements the count at
window `reliableSequenceNumber / 4096` and clears the bit exactly when the
count reaches zero. -/
theorem used_reliable_windows_invariant (c : ChannelWindows)
    (hreach : ChannelWindowsReachable c) :
    ∀ w, w < 16 → (c.usedReliableWindows.testBit w ↔ 0 < c.reliableWindows.getD w 0) := by
  have hinv : ChannelWindowsInv c := by
    induction hreach with
    | init => exact channelWindowsInv_init
    | send c rsn _ hrsn hcap ih => exact channelWindowsInv_send c rsn hrsn hcap ih
    | retire c rsn _ _ ih => exact channelWindowsInv_retire c rsn ih
  exact hinv.2.2

/-- `sizeof(ENet::ProtocolHeader)` (packed: two `uint16_t`). -/
def sizeofProtocolHeader : Nat := 4

/-- `sizeof(ENet::ProtocolSendFragment)` (packed: 4-byte command header, two
`uint16_t`, four `uint32_t`). -/
def sizeofProtocolSendFragment : Nat := 24

/-- `ENET_PROTOCOL_MAXIMUM_FRAGMENT_COUNT` (1024 * 1024). -/
def PROTOCOL_MAXIMUM_FRAGMENT_COUNT : Nat := 1048576

/-- The `ENetPacket` fields `peer_send` reads. -/
structure Packet where
  dataLength : Nat
  flags : Nat
deriving Repr, DecidableEq

/-- `ENet::peer_send` from peer.cpp (lines 64-184), with the peer/host inputs it
reads passed explicitly: the peer state, channel count and MTU, whether
`host->checksum` is configured, `host->maximumPacketSize`, and the addressed
channel's `outgoingUnreliableSequenceNumber` (which only influences which
command kind is built, not the claim-relevant outcome).  The result is the C
`int` return value paired with the number of outgoing commands queued
(`fragmentCount` fragments on the fragmentation path, one command otherwise).
`enet_malloc` is assumed to succeed; `fragmentLength` is computed in `size_t`
arithmetic exactly as in the source, and `fragmentCount` exactly as at
peer.cpp line 85: the `size_t` sum `dataLength + fragmentLength - 1` wraps
modulo 2^64 before the division, and the quotient is assigned to a `uint32_t`,
truncating modulo 2^32.  The second component is the `fragmentCount` value the
cap is tested against and written into every fragment header (the fragment
loop's `uint32_t fragmentOffset` cursor, which only matters beyond that
truncation point, is not modelled), or 1 on the single-command path. -/
def peer_send (state : PeerState) (channelCount mtu : Nat) (hasChecksum : Bool)
    (maximumPacketSize : Nat) (channelID : Nat) (packet : Packet) : Int × Nat :=
  if state ≠ PeerState.connected ∨ channelCount ≤ channelID ∨
      maximumPacketSize < packet.dataLength then
    (-1, 0)
  else
    let fragmentLength :=
      (mtu + U64 - sizeofProtocolHeader - sizeofProtocolSendFragment -
        (if hasChecksum then 4 else 0)) % U64
    if fragmentLength < packet.dataLength then
      let fragmentCount :=
        (packet.dataLength + fragmentLength + (U64 - 1)) % U64 / fragmentLength % U32
      if PROTOCOL_MAXIMUM_FRAGMENT_COUNT < fragmentCount then (-1, 0)
      else (0, fragmentCount)
    else
      (0, 1)

/-- C7 (amended): `peer_send` returns -1 and queues nothing exactly when the
peer is not `CONNECTED`, the channel id is out of range, the packet exceeds
`maximumPacketSize`, or the packet requires fragmentation and the fragment
count computed in the source's integer types — `ceil(dataLength /
fragmentLength)` evaluated in `size_t` (the sum wrapping modulo 2^64) and
truncated to `uint32_t` — exceeds `MAXIMUM_FRAGMENT_COUNT = 2^20`, where
`fragmentLength = mtu - sizeof(ProtocolHeader) - sizeof(ProtocolSendFragment)
- (checksum configured ? 4 : 0)`; on every other input it returns 0 and
proceeds to queue the command(s), with that truncated fragment count on the
fragmentation path and one command otherwise.  The hypotheses bound `mtu` by
its protocol minimum 576 and the `uint32_t` range (so the `size_t`
computation of `fragmentLength` cannot wrap). -/
theorem peer_send_spec (state : PeerState) (channelCount mtu : Nat) (hasChecksum : Bool)
    (maximumPacketSize : Nat) (channelID : Nat) (packet : Packet)
    (hmtu : 576 ≤ mtu) (hmtu2 : mtu < U32) :
    (let fragmentLength := mtu - sizeofProtocolHeader - sizeofProtocolSendFragment -
        (if hasChecksum then 4 else 0)
     ((peer_send state channelCount mtu hasChecksum maximumPacketSize channelID packet).1 = -1 ↔
        state ≠ PeerState.connected ∨ channelCount ≤ channelID ∨
          maximumPacketSize < packet.dataLength ∨
          (fragmentLength < packet.dataLength ∧
            PROTOCOL_MAXIMUM_FRAGMENT_COUNT <
              (packet.dataLength + fragmentLength + (U64 - 1)) % U64 /
                fragmentLength % U32)) ∧
     ((peer_send state channelCount mtu hasChecksum maximumPacketSize channelID packet).1 = -1 →
        (peer_send state channelCount mtu hasChecksum maximumPacketSize channelID packet).2 = 0) ∧
     ((peer_send state channelCount mtu hasChecksum maximumPacketSize channelID packet).1 ≠ -1 →
        (peer_send state channelCount mtu hasChecksum maximumPacketSize channelID packet).1 = 0 ∧
        (peer_send state channelCount mtu hasChecksum maximumPacketSize channelID packet).2 =
          (if fragmentLength < packet.dataLength then
            (packet.dataLength + fragmentLength + (U64 - 1)) % U64 /
              fragmentLength % U32
           else 1))) := by
  intro fragmentLength
  have hk : (if hasChecksum then (4 : Nat) else 0) ≤ 4 := by
    split <;> omega
  have hfl : (mtu + U64 - sizeofProtocolHeader - sizeofProtocolSendFragment -
      (if hasChecksum then 4 else 0)) % U64 = fragmentLength := by
    show _ = mtu - sizeofProtocolHeader - sizeofProtocolSendFragment -
      (if hasChecksum then 4 else 0)
    simp only [U64, U32, sizeofProtocolHeader, sizeofProtocolSendFragment] at *
    omega
  by_cases h1 : state ≠ PeerState.connected ∨ channelCount ≤ channelID ∨
      maximumPacketSize < packet.dataLength
  · rw [peer_send, if_pos h1]
    refine ⟨by tauto, fun _ => rfl, fun h => absurd rfl h⟩
  · rw [peer_send, if_neg h1]
    simp only [hfl]
    by_cases h2 : fragmentLength < packet.dataLength
    · rw [if_pos h2]
      by_cases h3 : PROTOCOL_MAXIMUM_FRAGMENT_COUNT <
          (packet.dataLength + fragmentLength + (U64 - 1)) % U64 / fragmentLength % U32
      · rw [if_pos h3]
        exact ⟨by tauto, fun _ => rfl, fun h => absurd rfl h⟩
      · rw [if_neg h3]
        refine ⟨?_, by intro h; simp at h, ?_⟩
        · constructor
          · intro h
            simp at h
          · intro h
            rcases h with h | h | h | h
            · exact absurd h (by tauto)
            · exact absurd h (by tauto)
            · exact absurd h (by tauto)
            · exact absurd h.2 h3
        · intro _
          exact ⟨rfl, by rw [if_pos h2]⟩
    · rw [if_neg h2]
      refine ⟨?_, by intro h; simp at h, ?_⟩
      · constructor
        · intro h
          simp at h
        · intro h
          rcases h with h | h | h | h
          · exact absurd h (by tauto)
          · exact absurd h (by tauto)
          · exact absurd h (by tauto)
          · exact absurd h.1 h2
      · intro _
        exact ⟨rfl, by rw [if_neg h2]⟩

/-- Witness for `peer_send_spec`: a connected peer with MTU 1400, no checksum,
sending a 3000-byte packet on channel 0 fragments it into three commands. -/
theorem peer_send_spec_witness :
    peer_send PeerState.connected 2 1400 false 32768 0 ⟨3000, 1⟩ = (0, 3) := by
  have h := ((peer_send_spec PeerState.connected 2 1400 false 32768 0 ⟨3000, 1⟩
      (by decide) (by decide)).2.2 (by decide))
  have h2 : peer_send PeerState.connected 2 1400 false 32768 0 ⟨3000, 1⟩ =
      ((peer_send PeerState.connected 2 1400 false 32768 0 ⟨3000, 1⟩).1,
       (peer_send PeerState.connected 2 1400 false 32768 0 ⟨3000, 1⟩).2) := rfl
  rw [h2, h.1, h.2]
  decide

/-- Counterexample to C7 as stated: a 548 * 2^32-byte packet over MTU 576
(fragment length 548) needs 2^32 fragments — far beyond
`MAXIMUM_FRAGMENT_COUNT`, so the claim demands a -1 rejection — but the
`uint32_t` assignment at peer.cpp line 85 truncates the count to 0, the cap
test passes, and `peer_send` returns 0 and proceeds to fragment. -/
theorem peer_send_claim_counterexample :
    548 < 548 * 4294967296 ∧
    PROTOCOL_MAXIMUM_FRAGMENT_COUNT < (548 * 4294967296 + 548 - 1) / 548 ∧
    (peer_send PeerState.connected 2 576 false (548 * 4294967296) 0
      ⟨548 * 4294967296, 1⟩).1 = 0 := by
  refine ⟨by norm_num, by norm_num [PROTOCOL_MAXIMUM_FRAGMENT_COUNT], ?_⟩
  decide

/-- `ENET_PROTOCOL_MINIMUM_CHANNEL_COUNT`. -/
def PROTOCOL_MINIMUM_CHANNEL_COUNT : Nat := 1

/-- `ENET_PROTOCOL_MAXIMUM_CHANNEL_COUNT`. -/
def PROTOCOL_MAXIMUM_CHANNEL_COUNT : Nat := 255

/-- The fields of a peer slot that `enet_protocol_handle_connect` reads during
its scan of `host->peers`. -/
structure ConnPeer where
  state : PeerState
  addressHost : Nat
  addressPort : Nat
  connectID : Nat
deriving Repr, DecidableEq

/-- The fields of the host that `enet_protocol_handle_connect` reads:
the peer array, `duplicatePeers`, `channelLimit` and the datagram's source
address (`host->receivedAddress`). -/
structure ConnectHost where
  peers : List ConnPeer
  duplicatePeers : Nat
  channelLimit : Nat
  receivedAddressHost : Nat
  receivedAddressPort : Nat
deriving Repr, DecidableEq

/-- The CONNECT command fields the accept/reject decision reads (byte order
already converted). -/
structure ConnectCmd where
  channelCount : Nat
  connectID : Nat
deriving Repr, DecidableEq

/-- The peer-array scan of `enet_protocol_handle_connect` (protocol.cpp lines
348-368): remember the first `DISCONNECTED` slot, count duplicate peers by
source host address among slots that are neither `DISCONNECTED` nor
`CONNECTING`, and return `nullptr` (`none`) at once when such a slot also
matches the source port and the command's `connectID`. -/
def handle_connect_scan (host : ConnectHost) (cmdConnectID : Nat) :
    List ConnPeer → Nat → Option Nat → Nat → Option (Option Nat × Nat)
  | [], _, firstDisconnected, duplicateCount => some (firstDisconnected, duplicateCount)
  | p :: rest, i, firstDisconnected, duplicateCount =>
    if p.state = PeerState.disconnected then
      handle_connect_scan host cmdConnectID rest (i + 1)
        (firstDisconnected <|> some i) duplicateCount
    else if p.state ≠ PeerState.connecting ∧ p.addressHost = host.receivedAddressHost then
      if p.addressPort = host.receivedAddressPort ∧ p.connectID = cmdConnectID then
        none
      else
        handle_connect_scan host cmdConnectID rest (i + 1) firstDisconnected
          (duplicateCount + 1)
    else
      handle_connect_scan host cmdConnectID rest (i + 1) firstDisconnected duplicateCount

/-- The outcome of accepting a CONNECT: which slot was initialised and the
fields the handler writes into it (protocol.cpp lines 375-514), plus the fact
that a VERIFY_CONNECT reply was queued on that peer (line 512). -/
structure ConnectAccept where
  peerIndex : Nat
  state : PeerState
  connectID : Nat
  addressHost : Nat
  addressPort : Nat
  channelCount : Nat
  verifyConnectQueued : Bool
deriving Repr, DecidableEq

/-- `enet_protocol_handle_connect` from protocol.cpp (lines 330-515), restricted
to the accept/reject decision and the slot initialisation the claim talks
about: channel-count validation, the peer-array scan, the duplicate-peer limit,
and on acceptance the first DISCONNECTED slot set to `ACKNOWLEDGING_CONNECT`
with the command's `connectID`, the source address, the channel count clamped
to `host->channelLimit`, and a queued VERIFY_CONNECT.  (Session-id derivation,
MTU and window-size negotiation write further fields of the accepted slot and
are not modelled; `enet_malloc` is assumed to succeed.) -/
def enet_protocol_handle_connect (host : ConnectHost) (cmd : ConnectCmd) :
    Option ConnectAccept :=
  if cmd.channelCount < PROTOCOL_MINIMUM_CHANNEL_COUNT ∨
      PROTOCOL_MAXIMUM_CHANNEL_COUNT < cmd.channelCount then
    none
  else
    match handle_connect_scan host cmd.connectID host.peers 0 none 0 with
    | none => none
    | some (none, _) => none
    | some (some i, duplicateCount) =>
      if host.duplicatePeers ≤ duplicateCount then none
      else
        some { peerIndex := i, state := PeerState.acknowledgingConnect,
               connectID := cmd.connectID,
               addressHost := host.receivedAddressHost,
               addressPort := host.receivedAddressPort,
               channelCount := min cmd.channelCount host.channelLimit,
               verifyConnectQueued := true }

/-- The duplicate count the completed scan produces: peers that are neither
`DISCONNECTED` nor `CONNECTING` and share the source host address. -/
def connectDuplicateCount (host : ConnectHost) (peers : List ConnPeer) : Nat :=
  (peers.filter (fun p => decide (p.state ≠ PeerState.disconnected ∧
    p.state ≠ PeerState.connecting ∧ p.addressHost = host.receivedAddressHost))).length

/-- A peer slot that triggers the scan's immediate `nullptr` return. -/
def ConnectMatch (host : ConnectHost) (cmdConnectID : Nat) (p : ConnPeer) : Prop :=
  p.state ≠ PeerState.disconnected ∧ p.state ≠ PeerState.connecting ∧
    p.addressHost = host.receivedAddressHost ∧
    p.addressPort = host.receivedAddressPort ∧ p.connectID = cmdConnectID

instance (host : ConnectHost) (cmdConnectID : Nat) (p : ConnPeer) :
    Decidable (ConnectMatch host cmdConnectID p) := by
  unfold ConnectMatch
  infer_instance

theorem handle_connect_scan_spec (host : ConnectHost) (cmdConnectID : Nat)
    (peers : List ConnPeer) :
    ∀ (i : Nat) (fd : Option Nat) (dc : Nat),
      handle_connect_scan host cmdConnectID peers i fd dc =
        (if ∃ p ∈ peers, ConnectMatch host cmdConnectID p then none
         else some
           (fd <|> List.findIdx? (fun p => p.state == PeerState.disconnected) peers i,
            dc + connectDuplicateCount host peers)) := by
  induction peers with
  | nil =>
    intro i fd dc
    simp [handle_connect_scan, connectDuplicateCount]
  | cons p rest ih =>
    intro i fd dc
    by_cases hdisc : p.state = PeerState.disconnected
    · rw [handle_connect_scan, if_pos hdisc, ih]
      have hnm : ¬ ConnectMatch host cmdConnectID p := fun hm => hm.1 hdisc
      have hiff : (∃ q ∈ p :: rest, ConnectMatch host cmdConnectID q) ↔
          (∃ q ∈ rest, ConnectMatch host cmdConnectID q) := by
        constructor
        · rintro ⟨q, hq, hmq⟩
          rcases List.mem_cons.1 hq with rfl | hq'
          · exact absurd hmq hnm
          · exact ⟨q, hq', hmq⟩
        · rintro ⟨q, hq, hmq⟩
          exact ⟨q, List.mem_cons_of_mem _ hq, hmq⟩
      rw [if_congr hiff rfl rfl]
      split
      · rfl
      · have hfi : List.findIdx? (fun q => q.state == PeerState.disconnected) (p :: rest) i =
            some i := by
          rw [List.findIdx?_cons, if_pos (by simp [hdisc])]
        rw [hfi]
        have hdup : connectDuplicateCount host (p :: rest) = connectDuplicateCount host rest := by
          simp only [connectDuplicateCount, List.filter_cons]
          rw [if_neg (by simp [hdisc])]
        rw [hdup]
        rcases fd with _ | j
        · simp
        · simp
    · by_cases hdup : p.state ≠ PeerState.connecting ∧
          p.addressHost = host.receivedAddressHost
      · by_cases hmatch : p.addressPort = host.receivedAddressPort ∧
            p.connectID = cmdConnectID
        · rw [handle_connect_scan, if_neg hdisc, if_pos hdup, if_pos hmatch]
          rw [if_pos ⟨p, List.mem_cons_self p rest,
            hdisc, hdup.1, hdup.2, hmatch.1, hmatch.2⟩]
        · rw [handle_connect_scan, if_neg hdisc, if_pos hdup, if_neg hmatch, ih]
          have hnm : ¬ ConnectMatch host cmdConnectID p := by
            intro hm
            exact hmatch ⟨hm.2.2.2.1, hm.2.2.2.2⟩
          have hiff : (∃ q ∈ p :: rest, ConnectMatch host cmdConnectID q) ↔
              (∃ q ∈ rest, ConnectMatch host cmdConnectID q) := by
            constructor
            · rintro ⟨q, hq, hmq⟩
              rcases List.mem_cons.1 hq with rfl | hq'
              · exact absurd hmq hnm
              · exact ⟨q, hq', hmq⟩
            · rintro ⟨q, hq, hmq⟩
              exact ⟨q, List.mem_cons_of_mem _ hq, hmq⟩
          rw [if_congr hiff rfl rfl]
          split
          · rfl
          · have hfi : List.findIdx? (fun q => q.state == PeerState.disconnected) (p :: rest) i =
                List.findIdx? (fun q => q.state == PeerState.disconnected) rest (i + 1) := by
              rw [List.findIdx?_cons, if_neg (by simp [hdisc])]
            rw [hfi]
            have hd : connectDuplicateCount host (p :: rest) =
                connectDuplicateCount host rest + 1 := by
              simp only [connectDuplicateCount, List.filter_cons]
              rw [if_pos (by simp [hdisc, hdup.1, hdup.2])]
              simp
            rw [hd]
            congr 1
            congr 1
            omega
      · rw [handle_connect_scan, if_neg hdisc, if_neg hdup, ih]
        have hnm : ¬ ConnectMatch host cmdConnectID p := by
          intro hm
          exact hdup ⟨hm.2.1, hm.2.2.1⟩
        have hiff : (∃ q ∈ p :: rest, ConnectMatch host cmdConnectID q) ↔
            (∃ q ∈ rest, ConnectMatch host cmdConnectID q) := by
          constructor
          · rintro ⟨q, hq, hmq⟩
            rcases List.mem_cons.1 hq with rfl | hq'
            · exact absurd hmq hnm
            · exact ⟨q, hq', hmq⟩
          · rintro ⟨q, hq, hmq⟩
            exact ⟨q, List.mem_cons_of_mem _ hq, hmq⟩
        rw [if_congr hiff rfl rfl]
        split
        · rfl
        · have hfi : List.findIdx? (fun q => q.state == PeerState.disconnected) (p :: rest) i =
              List.findIdx? (fun q => q.state == PeerState.disconnected) rest (i + 1) := by
            rw [List.findIdx?_cons, if_neg (by simp [hdisc])]
          rw [hfi]
          have hd : connectDuplicateCount host (p :: rest) = connectDuplicateCount host rest := by
            simp only [connectDuplicateCount, List.filter_cons]
            rw [if_neg (by
              simp only [decide_eq_true_eq]
              intro h
              exact hdup ⟨h.2.1, h.2.2⟩)]
          rw [hd]

/-- C4 (amended): the server rejects a CONNECT (returns no peer, initialises no
slot, queues no VERIFY_CONNECT) exactly when the requested channel count is
outside [1, 255], no peer slot is `DISCONNECTED`, some peer in a state other
than `DISCONNECTED` and `CONNECTING` has the same source address and port and
the same `connectID` as the command, or the count of peers in states other than
`DISCONNECTED` and `CONNECTING` sharing the source host address is `>=
host.duplicatePeers`; otherwise the first `DISCONNECTED` slot found is
initialised to `ACKNOWLEDGING_CONNECT` with the command's parameters and a
VERIFY_CONNECT reply is queued. -/
theorem enet_protocol_handle_connect_spec (host : ConnectHost) (cmd : ConnectCmd) :
    (enet_protocol_handle_connect host cmd = none ↔
      cmd.channelCount < PROTOCOL_MINIMUM_CHANNEL_COUNT ∨
      PROTOCOL_MAXIMUM_CHANNEL_COUNT < cmd.channelCount ∨
      (∀ p ∈ host.peers, p.state ≠ PeerState.disconnected) ∨
      (∃ p ∈ host.peers, ConnectMatch host cmd.connectID p) ∨
      host.duplicatePeers ≤ connectDuplicateCount host host.peers) ∧
    (∀ r, enet_protocol_handle_connect host cmd = some r →
      List.findIdx? (fun p => p.state == PeerState.disconnected) host.peers =
        some r.peerIndex ∧
      r.state = PeerState.acknowledgingConnect ∧
      r.connectID = cmd.connectID ∧
      r.addressHost = host.receivedAddressHost ∧
      r.addressPort = host.receivedAddressPort ∧
      r.channelCount = min cmd.channelCount host.channelLimit ∧
      r.verifyConnectQueued = true) := by
  have hnone : ∀ (l : List ConnPeer),
      (List.findIdx? (fun p => p.state == PeerState.disconnected) l = none ↔
        ∀ p ∈ l, p.state ≠ PeerState.disconnected) := by
    intro l
    rw [List.findIdx?_eq_none_iff]
    constructor
    · intro h p hp
      have := h p hp
      simpa using this
    · intro h p hp
      have := h p hp
      simpa using this
  by_cases hch : cmd.channelCount < PROTOCOL_MINIMUM_CHANNEL_COUNT ∨
      PROTOCOL_MAXIMUM_CHANNEL_COUNT < cmd.channelCount
  · rw [enet_protocol_handle_connect, if_pos hch]
    exact ⟨⟨fun _ => by tauto, fun _ => rfl⟩, fun r h => by cases h⟩
  · rw [enet_protocol_handle_connect, if_neg hch,
      handle_connect_scan_spec host cmd.connectID host.peers 0 none 0]
    by_cases hm : ∃ p ∈ host.peers, ConnectMatch host cmd.connectID p
    · rw [if_pos hm]
      refine ⟨⟨fun _ => Or.inr (Or.inr (Or.inr (Or.inl hm))), fun _ => rfl⟩, ?_⟩
      intro r h
      simp at h
    · rw [if_neg hm]
      have horelse : (none <|> List.findIdx? (fun p => p.state == PeerState.disconnected)
          host.peers 0) = List.findIdx? (fun p => p.state == PeerState.disconnected)
          host.peers 0 := by
        simp
      rw [horelse]
      rcases hfi : List.findIdx? (fun p => p.state == PeerState.disconnected) host.peers 0
        with _ | j
      · simp only [hfi]
        refine ⟨⟨fun _ => Or.inr (Or.inr (Or.inl ((hnone host.peers).1 hfi))),
          fun _ => by trivial⟩, ?_⟩
        intro r h
        simp at h
      · simp only [hfi, Nat.zero_add]
        by_cases hlim : host.duplicatePeers ≤ connectDuplicateCount host host.peers
        · rw [if_pos hlim]
          refine ⟨⟨fun _ => Or.inr (Or.inr (Or.inr (Or.inr hlim))), fun _ => by trivial⟩, ?_⟩
          intro r h
          simp at h
        · rw [if_neg hlim]
          constructor
          · constructor
            · intro h
              simp at h
            · intro h
              rcases h with h | h | h | h | h
              · exact absurd h (by tauto)
              · exact absurd h (by tauto)
              · have := (hnone host.peers).2 h
                rw [hfi] at this
                cases this
              · exact absurd h hm
              · omega
          · intro r h
            have hr := (Option.some.inj h).symm
            subst hr
            exact ⟨rfl, rfl, rfl, rfl, rfl, rfl, rfl⟩

/-- Witness for `enet_protocol_handle_connect_spec`: a two-slot host (the other
slot occupied by a connected peer at another address) accepts a CONNECT with
channel count 2 and connect id 42 into slot 0. -/
theorem enet_protocol_handle_connect_spec_witness :
    List.findIdx? (fun p : ConnPeer => p.state == PeerState.disconnected)
        [⟨PeerState.disconnected, 0, 0, 0⟩, ⟨PeerState.connected, 9, 9, 77⟩] = some 0 ∧
    PeerState.acknowledgingConnect = PeerState.acknowledgingConnect ∧
    (42 : Nat) = 42 ∧ (5 : Nat) = 5 ∧ (7 : Nat) = 7 ∧ (2 : Nat) = min 2 4 ∧ true = true :=
  (enet_protocol_handle_connect_spec
    ⟨[⟨PeerState.disconnected, 0, 0, 0⟩, ⟨PeerState.connected, 9, 9, 77⟩], 10, 4, 5, 7⟩
    ⟨2, 42⟩).2 ⟨0, PeerState.acknowledgingConnect, 42, 5, 7, 2, true⟩ (by decide)

/-- Modelled from the claim's words (C4, rejection condition as literally
stated): reject "when the requested channel count is outside [1, 255], when no
peer slot is in DISCONNECTED state, when some peer not in CONNECTING state has
the same source address and port and the same connectID as the command, or when
the count of non-CONNECTING peers sharing the source host address is >=
host.duplicatePeers". -/
def connect_reject_per_claim (host : ConnectHost) (cmd : ConnectCmd) : Prop :=
  cmd.channelCount < 1 ∨ 255 < cmd.channelCount ∨
  (∀ p ∈ host.peers, p.state ≠ PeerState.disconnected) ∨
  (∃ p ∈ host.peers, p.state ≠ PeerState.connecting ∧
    p.addressHost = host.receivedAddressHost ∧
    p.addressPort = host.receivedAddressPort ∧ p.connectID = cmd.connectID) ∨
  host.duplicatePeers ≤ (host.peers.filter (fun p =>
    decide (p.state ≠ PeerState.connecting ∧
      p.addressHost = host.receivedAddressHost))).length

/-- Counterexample to C4 as stated: a host whose only slot is `DISCONNECTED`
(after `peer_reset`: `connectID = 0`, the old address retained) and a CONNECT
from that same address with `connectID = 0`.  The claim's literal rejection
condition holds (a peer "not in CONNECTING state" matches address, port and
connectID), yet the code accepts: the DISCONNECTED slot is skipped by the
scan's `else if`, so the handler initialises it instead of rejecting. -/
theorem enet_protocol_handle_connect_claim_counterexample :
    connect_reject_per_claim ⟨[⟨PeerState.disconnected, 5, 7, 0⟩], 10, 2, 5, 7⟩ ⟨2, 0⟩ ∧
    enet_protocol_handle_connect ⟨[⟨PeerState.disconnected, 5, 7, 0⟩], 10, 2, 5, 7⟩ ⟨2, 0⟩ =
      some ⟨0, PeerState.acknowledgingConnect, 0, 5, 7, 2, true⟩ := by
  constructor
  · refine Or.inr (Or.inr (Or.inr (Or.inl ?_)))
    exact ⟨⟨PeerState.disconnected, 5, 7, 0⟩, by simp, by decide, rfl, rfl, rfl⟩
  · decide

/-- `ENET_PROTOCOL_COMMAND_SEND_RELIABLE`. -/
def PROTOCOL_COMMAND_SEND_RELIABLE : Nat := 6

/-- `ENET_PROTOCOL_COMMAND_SEND_UNRELIABLE`. -/
def PROTOCOL_COMMAND_SEND_UNRELIABLE : Nat := 7

/-- `ENET_PROTOCOL_COMMAND_SEND_FRAGMENT`. -/
def PROTOCOL_COMMAND_SEND_FRAGMENT : Nat := 8

/-- `ENET_PROTOCOL_COMMAND_SEND_UNSEQUENCED`. -/
def PROTOCOL_COMMAND_SEND_UNSEQUENCED : Nat := 9

/-- `ENET_PROTOCOL_COMMAND_SEND_UNRELIABLE_FRAGMENT`. -/
def PROTOCOL_COMMAND_SEND_UNRELIABLE_FRAGMENT : Nat := 12

/-- An `ENetIncomingCommand` as far as the queueing and dispatch logic reads
it: the command number (`command.header.command & PROTOCOL_COMMAND_MASK`), the
sequence numbers, and the fragment bookkeeping.  (The packet payload and the
fragment bitmap are not needed by the ordering logic.) -/
structure IncomingCommand where
  commandNumber : Nat
  reliableSequenceNumber : Nat
  unreliableSequenceNumber : Nat
  fragmentCount : Nat
  fragmentsRemaining : Nat
deriving Repr, DecidableEq

/-- An `ENetChannel`'s incoming side: the two sequence-number baselines and the
two ordered queues of partially processed incoming commands (list front =
`list_begin`). -/
structure Channel where
  incomingReliableSequenceNumber : Nat
  incomingUnreliableSequenceNumber : Nat
  incomingReliableCommands : List IncomingCommand
  incomingUnreliableCommands : List IncomingCommand
deriving Repr, DecidableEq

/-- Loop state for `peer_dispatch_incoming_unreliable_commands`:
`iusn` tracks `channel->incomingUnreliableSequenceNumber`; `run` is the current
`[startCommand, currentCommand)` segment (not yet spliced); `retained` are the
elements already passed over that stay in the queue, tagged with their index in
the original queue; `disp` is what has been spliced onto
`peer->dispatchedCommands`; `marker` is the `droppedCommand` iterator, as the
original-queue index of the node it points at (`none` = end sentinel). -/
structure UdState where
  iusn : Nat
  run : List IncomingCommand
  retained : List (Nat × IncomingCommand)
  disp : List IncomingCommand
  marker : Option Nat
deriving Repr, DecidableEq

/-- The loop of `peer_dispatch_incoming_unreliable_commands` (peer.cpp lines
666-736), walking the unreliable queue in order.  Returns the final loop state
and `some i` when the loop `break`s at original index `i` (an in-window command
of a future reliable sequence), `none` when it runs off the end. -/
def udLoop (irsn : Nat) : Nat → UdState → List IncomingCommand → UdState × Option Nat
  | _, st, [] => (st, none)
  | i, st, c :: rest =>
    if c.commandNumber = PROTOCOL_COMMAND_SEND_UNSEQUENCED then
      udLoop irsn (i + 1) { st with run := st.run ++ [c] } rest
    else if c.reliableSequenceNumber = irsn then
      if c.fragmentsRemaining = 0 then
        udLoop irsn (i + 1)
          { st with iusn := c.unreliableSequenceNumber, run := st.run ++ [c] } rest
      else if st.run = [] then
        udLoop irsn (i + 1)
          { st with
              marker :=
                if st.marker = some i then st.marker
                else
                  match st.retained.getLast? with
                  | some jc => some jc.1
                  | none => st.marker,
              retained := st.retained ++ [(i, c)] } rest
      else
        udLoop irsn (i + 1)
          { st with
              disp := st.disp ++ st.run,
              run := [],
              marker := some i,
              retained := st.retained ++ [(i, c)] } rest
    else
      let reliableWindow0 := c.reliableSequenceNumber / PEER_RELIABLE_WINDOW_SIZE
      let currentWindow := irsn / PEER_RELIABLE_WINDOW_SIZE
      let reliableWindow :=
        if c.reliableSequenceNumber < irsn then reliableWindow0 + PEER_RELIABLE_WINDOWS
        else reliableWindow0
      if currentWindow ≤ reliableWindow ∧
          reliableWindow < currentWindow + PEER_FREE_RELIABLE_WINDOWS - 1 then
        (st, some i)
      else
        udLoop irsn (i + 1)
          { st with
              marker := some (i + 1),
              disp := st.disp ++ st.run,
              run := [],
              retained := st.retained ++ [(i, c)] } rest

/-- `ENet::peer_dispatch_incoming_unreliable_commands` from peer.cpp (lines
661-755): walk the unreliable queue splicing runs of dispatchable commands
(complete commands of the current reliable sequence, with interleaved
UNSEQUENCED commands accompanying the run) onto `dispatchedCommands`, stop at
an in-window future reliable sequence, then remove the stale commands between
the queue head and the `droppedCommand` marker, preserving `excludeIdx` (the
index of the command the caller just queued, `enet_peer_remove_incoming_commands`'s
`excludeCommand`).  Setting the peer's `NEEDS_DISPATCH` flag and the host
dispatch queue are not modelled. -/
def peer_dispatch_incoming_unreliable_commands (ch : Channel)
    (dispatchedCommands : List IncomingCommand) (excludeIdx : Option Nat) :
    Channel × List IncomingCommand :=
  let L := ch.incomingUnreliableCommands
  let st0 : UdState :=
    { iusn := ch.incomingUnreliableSequenceNumber, run := [], retained := [], disp := [],
      marker := if L = [] then none else some 0 }
  let r := udLoop ch.incomingReliableSequenceNumber 0 st0 L
  let st := r.1
  let st1 :=
    if st.run = [] then st
    else
      { st with
          disp := st.disp ++ st.run,
          run := [],
          marker := match r.2 with | some b => some b | none => none }
  let keepBound : Nat := match st1.marker with | some m => m | none => L.length
  let kept := (st1.retained.filter
    (fun jc => decide (keepBound ≤ jc.1 ∨ some jc.1 = excludeIdx))).map (·.2)
  let tail := match r.2 with | some b => L.drop b | none => []
  ({ ch with
      incomingUnreliableSequenceNumber := st1.iusn,
      incomingUnreliableCommands := kept ++ tail },
   dispatchedCommands ++ st1.disp)

/-- The sequence-number advance of one dispatched reliable command
(peer.cpp lines 774-779): `incomingReliableSequenceNumber` becomes the
command's sequence number, plus `fragmentCount - 1` for fragmented commands
(`uint16_t` arithmetic). -/
def nextReliableSequence (_s : Nat) (c : IncomingCommand) : Nat :=
  if 0 < c.fragmentCount then (c.reliableSequenceNumber + (c.fragmentCount - 1)) % U16
  else c.reliableSequenceNumber

/-- The scan loop of `peer_dispatch_incoming_reliable_commands` (peer.cpp lines
762-780): walk the reliable queue from the front while each command is fully
reassembled (`fragmentsRemaining = 0`) and carries the sequence number
`(uint16_t)(incomingReliableSequenceNumber + 1)`, advancing the baseline.
Returns the final baseline and how many commands were consumed. -/
def reliableDispatchCount : Nat → List IncomingCommand → Nat × Nat
  | irsn, [] => (irsn, 0)
  | irsn, c :: rest =>
    if 0 < c.fragmentsRemaining ∨ c.reliableSequenceNumber ≠ (irsn + 1) % U16 then
      (irsn, 0)
    else
      let r := reliableDispatchCount (nextReliableSequence irsn c) rest
      (r.1, r.2 + 1)

/-- `ENet::peer_dispatch_incoming_reliable_commands` from peer.cpp (lines
757-803): splice the maximal dispatchable prefix of the reliable queue onto
`dispatchedCommands`, advance `incomingReliableSequenceNumber`, reset
`incomingUnreliableSequenceNumber` to 0, and, if unreliable commands remain on
the channel, run the unreliable dispatch with the same queued-command context
(the queued command of the reliable caller is never an element of the
unreliable queue, hence `excludeIdx = none`).  Setting `NEEDS_DISPATCH` and
the host dispatch queue are not modelled. -/
def peer_dispatch_incoming_reliable_commands (ch : Channel)
    (dispatchedCommands : List IncomingCommand) : Channel × List IncomingCommand :=
  let r := reliableDispatchCount ch.incomingReliableSequenceNumber ch.incomingReliableCommands
  if r.2 = 0 then (ch, dispatchedCommands)
  else
    let ch1 : Channel :=
      { ch with
          incomingReliableSequenceNumber := r.1,
          incomingUnreliableSequenceNumber := 0,
          incomingReliableCommands := ch.incomingReliableCommands.drop r.2 }
    let disp1 := dispatchedCommands ++ ch.incomingReliableCommands.take r.2
    if ch1.incomingUnreliableCommands = [] then (ch1, disp1)
    else peer_dispatch_incoming_unreliable_commands ch1 disp1 none

/-- Where the backward scans of `peer_queue_incoming_command` leave the new
command: discard it as a duplicate, insert at the queue front
(`list_insert(list_next(list_end(q)), ...)` after the scan exhausts), or insert
right after the element at index `j` (`list_insert(list_next(current), ...)`
after a `break` at `current = q[j]`). -/
inductive InsertPos where
  | dup : InsertPos
  | front : InsertPos
  | after (j : Nat) : InsertPos
deriving Repr, DecidableEq

/-- The backward scan of the reliable queue in `peer_queue_incoming_command`
(peer.cpp lines 849-876), called with the queue reversed and `j` the original
index of the reversed list's head. -/
def reliableInsertScan (irsn rsn : Nat) : Nat → List IncomingCommand → InsertPos
  | _, [] => InsertPos.front
  | j, c :: rest =>
    if irsn ≤ rsn ∧ c.reliableSequenceNumber < irsn then
      reliableInsertScan irsn rsn (j - 1) rest
    else if ¬ irsn ≤ rsn ∧ irsn ≤ c.reliableSequenceNumber then
      InsertPos.after j
    else if c.reliableSequenceNumber ≤ rsn then
      if c.reliableSequenceNumber < rsn then InsertPos.after j else InsertPos.dup
    else
      reliableInsertScan irsn rsn (j - 1) rest

/-- The backward scan of the unreliable queue in `peer_queue_incoming_command`
(peer.cpp lines 889-931), called with the queue reversed and `j` the original
index of the reversed list's head.  (The `SEND_UNSEQUENCED` test on the *new*
command's number is kept although it can never fire in this branch.) -/
def unreliableInsertScan (cmdNumber irsn rsn usn : Nat) :
    Nat → List IncomingCommand → InsertPos
  | _, [] => InsertPos.front
  | j, c :: rest =>
    if cmdNumber = PROTOCOL_COMMAND_SEND_UNSEQUENCED then
      unreliableInsertScan cmdNumber irsn rsn usn (j - 1) rest
    else if irsn ≤ rsn ∧ c.reliableSequenceNumber < irsn then
      unreliableInsertScan cmdNumber irsn rsn usn (j - 1) rest
    else if ¬ irsn ≤ rsn ∧ irsn ≤ c.reliableSequenceNumber then
      InsertPos.after j
    else if c.reliableSequenceNumber < rsn then
      InsertPos.after j
    else if rsn < c.reliableSequenceNumber then
      unreliableInsertScan cmdNumber irsn rsn usn (j - 1) rest
    else if c.unreliableSequenceNumber ≤ usn then
      if c.unreliableSequenceNumber < usn then InsertPos.after j else InsertPos.dup
    else
      unreliableInsertScan cmdNumber irsn rsn usn (j - 1) rest

/-- Insert `a` so that it ends up at index `n` of the result
(`ENet::list_insert` before the element currently at index `n`). -/
def insertAt (n : Nat) (a : IncomingCommand) (l : List IncomingCommand) :
    List IncomingCommand :=
  l.take n ++ a :: l.drop n

/-- The command header / record fields `peer_queue_incoming_command` reads
from the incoming `ENetProtocol` (byte order already converted where the
source converts it). -/
structure ProtocolCmd where
  commandNumber : Nat
  reliableSequenceNumber : Nat
  unreliableSequenceNumber : Nat
deriving Repr, DecidableEq

/-- The three exits of `peer_queue_incoming_command`: `failed` is the
`notifyError` label's `nullptr` return, `discarded` is the `discardCommand`
label's static `dummyCommand` return (both leave the peer and channel
unchanged), and `queued` carries the updated channel and dispatch queue. -/
inductive QueueResult where
  | failed : QueueResult
  | discarded : QueueResult
  | queued (ch : Channel) (dispatchedCommands : List IncomingCommand) : QueueResult
deriving Repr, DecidableEq

/-- The reliable-window admission test of `peer_queue_incoming_command`
(peer.cpp lines 824-836): the command's 4096-wide window, lifted by 16 windows
when its sequence number sits below the baseline, must lie within
`PEER_FREE_RELIABLE_WINDOWS - 1` windows of the current one. -/
def reliableWindowOpen (irsn rsn : Nat) : Prop :=
  let reliableWindow0 := rsn / PEER_RELIABLE_WINDOW_SIZE
  let currentWindow := irsn / PEER_RELIABLE_WINDOW_SIZE
  let reliableWindow :=
    if rsn < irsn then reliableWindow0 + PEER_RELIABLE_WINDOWS
    else reliableWindow0
  currentWindow ≤ reliableWindow ∧
    reliableWindow < currentWindow + PEER_FREE_RELIABLE_WINDOWS - 1

instance (irsn rsn : Nat) : Decidable (reliableWindowOpen irsn rsn) := by
  unfold reliableWindowOpen
  infer_instance

/-- `ENet::peer_queue_incoming_command` from peer.cpp (lines 805-1025), with
the peer fields it reads passed explicitly (`state`, `totalWaitingData`,
`host->maximumWaitingData`) and the addressed channel plus the peer's
`dispatchedCommands` as the mutable state.  `packet_create` / `enet_malloc`
are assumed to succeed, so `notifyError` is reached exactly through the
`discardCommand` label with `fragmentCount > 0`, the `totalWaitingData`
admission check, or an oversized fragment count. -/
def peer_queue_incoming_command (state : PeerState)
    (totalWaitingData maximumWaitingData : Nat) (ch : Channel)
    (dispatchedCommands : List IncomingCommand) (cmd : ProtocolCmd)
    (fragmentCount : Nat) : QueueResult :=
  let discardCommand : QueueResult :=
    if 0 < fragmentCount then QueueResult.failed else QueueResult.discarded
  if state = PeerState.disconnectLater then discardCommand
  else
    let rsn :=
      if cmd.commandNumber ≠ PROTOCOL_COMMAND_SEND_UNSEQUENCED then
        cmd.reliableSequenceNumber
      else 0
    let usn :=
      if cmd.commandNumber = PROTOCOL_COMMAND_SEND_UNRELIABLE ∨
          cmd.commandNumber = PROTOCOL_COMMAND_SEND_UNRELIABLE_FRAGMENT then
        cmd.unreliableSequenceNumber
      else 0
    let windowOK : Prop :=
      if cmd.commandNumber ≠ PROTOCOL_COMMAND_SEND_UNSEQUENCED then
        reliableWindowOpen ch.incomingReliableSequenceNumber rsn
      else True
    if ¬ windowOK then discardCommand
    else
      let finishReliable : Nat → QueueResult := fun idx =>
        if maximumWaitingData ≤ totalWaitingData then QueueResult.failed
        else if PROTOCOL_MAXIMUM_FRAGMENT_COUNT < fragmentCount then QueueResult.failed
        else
          let ic : IncomingCommand :=
            { commandNumber := cmd.commandNumber,
              reliableSequenceNumber := cmd.reliableSequenceNumber,
              unreliableSequenceNumber := usn &&& 0xFFFF,
              fragmentCount := fragmentCount,
              fragmentsRemaining := fragmentCount }
          let ch1 := { ch with
            incomingReliableCommands := insertAt idx ic ch.incomingReliableCommands }
          let r := peer_dispatch_incoming_reliable_commands ch1 dispatchedCommands
          QueueResult.queued r.1 r.2
      let finishUnreliable : Nat → QueueResult := fun idx =>
        if maximumWaitingData ≤ totalWaitingData then QueueResult.failed
        else if PROTOCOL_MAXIMUM_FRAGMENT_COUNT < fragmentCount then QueueResult.failed
        else
          let ic : IncomingCommand :=
            { commandNumber := cmd.commandNumber,
              reliableSequenceNumber := cmd.reliableSequenceNumber,
              unreliableSequenceNumber := usn &&& 0xFFFF,
              fragmentCount := fragmentCount,
              fragmentsRemaining := fragmentCount }
          let ch1 := { ch with
            incomingUnreliableCommands := insertAt idx ic ch.incomingUnreliableCommands }
          let r := peer_dispatch_incoming_unreliable_commands ch1 dispatchedCommands (some idx)
          QueueResult.queued r.1 r.2
      if cmd.commandNumber = PROTOCOL_COMMAND_SEND_FRAGMENT ∨
          cmd.commandNumber = PROTOCOL_COMMAND_SEND_RELIABLE then
        if rsn = ch.incomingReliableSequenceNumber then discardCommand
        else
          match reliableInsertScan ch.incomingReliableSequenceNumber rsn
              (ch.incomingReliableCommands.length - 1)
              ch.incomingReliableCommands.reverse with
          | InsertPos.dup => discardCommand
          | InsertPos.front => finishReliable 0
          | InsertPos.after j => finishReliable (j + 1)
      else if cmd.commandNumber = PROTOCOL_COMMAND_SEND_UNRELIABLE ∨
          cmd.commandNumber = PROTOCOL_COMMAND_SEND_UNRELIABLE_FRAGMENT then
        if rsn = ch.incomingReliableSequenceNumber ∧
            usn ≤ ch.incomingUnreliableSequenceNumber then
          discardCommand
        else
          match unreliableInsertScan cmd.commandNumber
              ch.incomingReliableSequenceNumber rsn usn
              (ch.incomingUnreliableCommands.length - 1)
              ch.incomingUnreliableCommands.reverse with
          | InsertPos.dup => discardCommand
          | InsertPos.front => finishUnreliable 0
          | InsertPos.after j => finishUnreliable (j + 1)
      else if cmd.commandNumber = PROTOCOL_COMMAND_SEND_UNSEQUENCED then
        finishUnreliable 0
      else
        discardCommand

theorem peer_queue_incoming_command_dl_eq (totalWaitingData maximumWaitingData : Nat)
    (ch : Channel) (dispatchedCommands : List IncomingCommand) (cmd : ProtocolCmd)
    (fragmentCount : Nat) :
    peer_queue_incoming_command PeerState.disconnectLater totalWaitingData
        maximumWaitingData ch dispatchedCommands cmd fragmentCount =
      (if 0 < fragmentCount then QueueResult.failed else QueueResult.discarded) := by
  rw [peer_queue_incoming_command]
  rw [if_pos rfl]

/-- C10: for a peer in state `DISCONNECT_LATER`, `peer_queue_incoming_command`
discards every non-fragment incoming command before any ordering or duplicate
check: it returns the static dummy sentinel (`discarded`), queues nothing, and
leaves all peer and channel state unchanged (the model's `discarded` and
`failed` results carry no state, and the source's early-out at peer.cpp lines
818-821 runs before any mutation); for fragment commands (`fragmentCount > 0`)
the `discardCommand` label falls through to `notifyError` and reports an error
by returning null (`failed`).  This holds for every command number, so payload
sent by the remote after the local side entered `DISCONNECT_LATER` is never
delivered, even though the per-command handlers accept peers in `CONNECTED` or
`DISCONNECT_LATER` state. -/
theorem peer_queue_incoming_command_disconnect_later_spec
    (totalWaitingData maximumWaitingData : Nat) (ch : Channel)
    (dispatchedCommands : List IncomingCommand) (cmd : ProtocolCmd)
    (fragmentCount : Nat) :
    peer_queue_incoming_command PeerState.disconnectLater totalWaitingData
        maximumWaitingData ch dispatchedCommands cmd fragmentCount =
      (if 0 < fragmentCount then QueueResult.failed else QueueResult.discarded) :=
  peer_queue_incoming_command_dl_eq totalWaitingData maximumWaitingData ch
    dispatchedCommands cmd fragmentCount

/-- `ENET_PEER_UNSEQUENCED_WINDOW_SIZE`. -/
def PEER_UNSEQUENCED_WINDOW_SIZE : Nat := 1024

/-- `ENET_PEER_FREE_UNSEQUENCED_WINDOWS`. -/
def PEER_FREE_UNSEQUENCED_WINDOWS : Nat := 32

/-- The unsequenced-delivery state of an `ENetPeer`:
`incomingUnsequencedGroup` (`uint16_t`) and the 1024-bit replay bitmap
`unsequencedWindow` (stored in the source as 32 `uint32_t` words, little-endian
within the array: bit `index` of the bitmap is word `index / 32`, bit
`index % 32`, i.e. bit `index` of this `Nat`). -/
structure UnseqPeer where
  incomingUnsequencedGroup : Nat
  unsequencedWindow : Nat
deriving Repr, DecidableEq

/-- `enet_protocol_handle_send_unsequenced` from protocol.cpp (lines 545-602):
validation (channel id, peer state, data length; the datagram cursor bounds
checks concern raw pointers and are subsumed in the data-length hypothesis),
the 16-to-32-bit group lift, the free-window range check, the window rebase,
the replay-bit check, queueing through `peer_queue_incoming_command`, and
setting the replay bit.  `none` models the handler's `-1` return (on the
error path the partially rebased peer is irrelevant: the caller abandons the
whole datagram); `some` carries the updated unsequenced state, channel and
dispatch queue for the `0` return. -/
def enet_protocol_handle_send_unsequenced (channelCount : Nat) (channelID : Nat)
    (state : PeerState) (maximumPacketSize dataLength : Nat)
    (totalWaitingData maximumWaitingData : Nat) (peer : UnseqPeer) (ch : Channel)
    (dispatchedCommands : List IncomingCommand) (cmd : ProtocolCmd)
    (unsequencedGroup16 : Nat) :
    Option (UnseqPeer × Channel × List IncomingCommand) :=
  if channelCount ≤ channelID ∨
      (state ≠ PeerState.connected ∧ state ≠ PeerState.disconnectLater) then
    none
  else if maximumPacketSize < dataLength then
    none
  else
    let index := unsequencedGroup16 % PEER_UNSEQUENCED_WINDOW_SIZE
    let unsequencedGroup :=
      if unsequencedGroup16 < peer.incomingUnsequencedGroup then
        unsequencedGroup16 + 0x10000
      else unsequencedGroup16
    if peer.incomingUnsequencedGroup +
        PEER_FREE_UNSEQUENCED_WINDOWS * PEER_UNSEQUENCED_WINDOW_SIZE ≤ unsequencedGroup then
      some (peer, ch, dispatchedCommands)
    else
      let g := unsequencedGroup &&& 0xFFFF
      let queueAndSet : UnseqPeer → Option (UnseqPeer × Channel × List IncomingCommand) :=
        fun q =>
          match peer_queue_incoming_command state totalWaitingData maximumWaitingData ch
              dispatchedCommands cmd 0 with
          | QueueResult.failed => none
          | QueueResult.discarded =>
            some ({ q with unsequencedWindow := q.unsequencedWindow ||| (1 <<< index) },
              ch, dispatchedCommands)
          | QueueResult.queued ch1 d1 =>
            some ({ q with unsequencedWindow := q.unsequencedWindow ||| (1 <<< index) },
              ch1, d1)
      if g - index ≠ peer.incomingUnsequencedGroup then
        queueAndSet { incomingUnsequencedGroup := g - index, unsequencedWindow := 0 }
      else if peer.unsequencedWindow.testBit index then
        some (peer, ch, dispatchedCommands)
      else
        queueAndSet peer

theorem unseq_mask_eq (g16 : Nat) (pg : Nat) (hg : g16 < U16) :
    (if g16 < pg then g16 + 65536 else g16) &&& 65535 = g16 := by
  have h := Nat.and_pow_two_sub_one_eq_mod (if g16 < pg then g16 + 65536 else g16) 16
  norm_num at h
  rw [h]
  simp only [U16] at hg
  split <;> omega

theorem queue_unsequenced_connected (totalWaitingData maximumWaitingData : Nat) (ch : Channel)
    (dispatchedCommands : List IncomingCommand) (cmd : ProtocolCmd)
    (hnum : cmd.commandNumber = PROTOCOL_COMMAND_SEND_UNSEQUENCED)
    (htw : totalWaitingData < maximumWaitingData) :
    ∃ ch1 d1, peer_queue_incoming_command PeerState.connected totalWaitingData
        maximumWaitingData ch dispatchedCommands cmd 0 = QueueResult.queued ch1 d1 := by
  have key : peer_queue_incoming_command PeerState.connected totalWaitingData
      maximumWaitingData ch dispatchedCommands cmd 0 =
    QueueResult.queued
      (peer_dispatch_incoming_unreliable_commands { ch with incomingUnreliableCommands := insertAt 0 ⟨cmd.commandNumber, cmd.reliableSequenceNumber, 0, 0, 0⟩ ch.incomingUnreliableCommands } dispatchedCommands (some 0)).1
      (peer_dispatch_incoming_unreliable_commands { ch with incomingUnreliableCommands := insertAt 0 ⟨cmd.commandNumber, cmd.reliableSequenceNumber, 0, 0, 0⟩ ch.incomingUnreliableCommands } dispatchedCommands (some 0)).2 := by
    rw [peer_queue_incoming_command]
    rw [if_neg (by decide : ¬ (PeerState.connected = PeerState.disconnectLater))]
    simp only [hnum, PROTOCOL_COMMAND_SEND_UNSEQUENCED, PROTOCOL_COMMAND_SEND_RELIABLE,
      PROTOCOL_COMMAND_SEND_UNRELIABLE, PROTOCOL_COMMAND_SEND_FRAGMENT,
      PROTOCOL_COMMAND_SEND_UNRELIABLE_FRAGMENT, PROTOCOL_MAXIMUM_FRAGMENT_COUNT]
    norm_num
    intro h
    exact absurd h (by omega)
  exact ⟨_, _, key⟩

theorem unseq_drop_duplicate (channelCount channelID : Nat) (state : PeerState)
    (maximumPacketSize dataLength totalWaitingData maximumWaitingData : Nat)
    (q : UnseqPeer) (ch2 : Channel) (d2 : List IncomingCommand) (cmd : ProtocolCmd)
    (g16 : Nat)
    (hch : channelID < channelCount)
    (hstate : state = PeerState.connected ∨ state = PeerState.disconnectLater)
    (hdl : dataLength ≤ maximumPacketSize)
    (hg : g16 < U16)
    (hqg : q.incomingUnsequencedGroup = g16 - g16 % 1024)
    (hbit : q.unsequencedWindow.testBit (g16 % 1024) = true) :
    enet_protocol_handle_send_unsequenced channelCount channelID state maximumPacketSize
        dataLength totalWaitingData maximumWaitingData q ch2 d2 cmd g16 =
      some (q, ch2, d2) := by
  have hv1 : ¬ (channelCount ≤ channelID ∨
      (state ≠ PeerState.connected ∧ state ≠ PeerState.disconnectLater)) := by
    rintro (h | ⟨h1, h2⟩)
    · omega
    · rcases hstate with h | h
      · exact h1 h
      · exact h2 h
  have hnolift : ¬ g16 < q.incomingUnsequencedGroup := by omega
  have hrange : ¬ (q.incomingUnsequencedGroup + 32 * 1024 ≤
      (if g16 < q.incomingUnsequencedGroup then g16 + 65536 else g16)) := by
    rw [if_neg hnolift]
    omega
  have hmask := unseq_mask_eq g16 q.incomingUnsequencedGroup hg
  rw [enet_protocol_handle_send_unsequenced]
  rw [if_neg hv1, if_neg (Nat.not_lt.2 hdl)]
  simp only [PEER_UNSEQUENCED_WINDOW_SIZE, PEER_FREE_UNSEQUENCED_WINDOWS]
  rw [if_neg hrange, hmask]
  rw [if_neg (by omega : ¬ g16 - g16 % 1024 ≠ q.incomingUnsequencedGroup)]
  rw [if_pos hbit]

/-- C3 (amended): on receipt of a SEND_UNSEQUENCED command by a peer in
`CONNECTED` or `DISCONNECT_LATER` state, the 16-bit unsequenced group is lifted
by adding 0x10000 when it is numerically below `incomingUnsequencedGroup`; the
command is silently dropped (handler returns 0, nothing queued, no state
change) when the lifted group is `>= incomingUnsequencedGroup + 32 * 1024` or
when its bit in the 1024-slot window is already set; when
`group - (group mod 1024)` differs from `incomingUnsequencedGroup` the window
is rebased and the bitmap zeroed; otherwise the command is handed to
`peer_queue_incoming_command` and its bit is set (a `CONNECTED` peer enqueues
it for delivery; a `DISCONNECT_LATER` peer's queue call discards the payload,
per the DISCONNECT_LATER discard rule, while the bit is still set), so
replaying the same unsequenced datagram delivers it to the application at most
once (final conjunct: once the bit is set and the group window is current, the
same group is always dropped). -/
theorem enet_protocol_handle_send_unsequenced_spec
    (channelCount channelID : Nat) (state : PeerState)
    (maximumPacketSize dataLength totalWaitingData maximumWaitingData : Nat)
    (peer : UnseqPeer) (ch : Channel) (dispatchedCommands : List IncomingCommand)
    (cmd : ProtocolCmd) (g16 index lifted : Nat)
    (hch : channelID < channelCount)
    (hstate : state = PeerState.connected ∨ state = PeerState.disconnectLater)
    (hdl : dataLength ≤ maximumPacketSize)
    (hnum : cmd.commandNumber = PROTOCOL_COMMAND_SEND_UNSEQUENCED)
    (hg : g16 < U16) (_hpg : peer.incomingUnsequencedGroup < U16)
    (htw : totalWaitingData < maximumWaitingData)
    (hidx : index = g16 % 1024)
    (hlift : lifted = if g16 < peer.incomingUnsequencedGroup then g16 + 65536 else g16) :
    (peer.incomingUnsequencedGroup + 32768 ≤ lifted →
      enet_protocol_handle_send_unsequenced channelCount channelID state maximumPacketSize
          dataLength totalWaitingData maximumWaitingData peer ch dispatchedCommands cmd g16 =
        some (peer, ch, dispatchedCommands)) ∧
    (lifted < peer.incomingUnsequencedGroup + 32768 →
      g16 - index = peer.incomingUnsequencedGroup →
      peer.unsequencedWindow.testBit index = true →
      enet_protocol_handle_send_unsequenced channelCount channelID state maximumPacketSize
          dataLength totalWaitingData maximumWaitingData peer ch dispatchedCommands cmd g16 =
        some (peer, ch, dispatchedCommands)) ∧
    (lifted < peer.incomingUnsequencedGroup + 32768 →
      g16 - index ≠ peer.incomingUnsequencedGroup →
      (state = PeerState.connected →
        ∃ ch1 d1,
          peer_queue_incoming_command state totalWaitingData maximumWaitingData ch
              dispatchedCommands cmd 0 = QueueResult.queued ch1 d1 ∧
          enet_protocol_handle_send_unsequenced channelCount channelID state maximumPacketSize
              dataLength totalWaitingData maximumWaitingData peer ch dispatchedCommands cmd g16 =
            some (⟨g16 - index, 1 <<< index⟩, ch1, d1)) ∧
      (state = PeerState.disconnectLater →
        enet_protocol_handle_send_unsequenced channelCount channelID state maximumPacketSize
            dataLength totalWaitingData maximumWaitingData peer ch dispatchedCommands cmd g16 =
          some (⟨g16 - index, 1 <<< index⟩, ch, dispatchedCommands))) ∧
    (lifted < peer.incomingUnsequencedGroup + 32768 →
      g16 - index = peer.incomingUnsequencedGroup →
      peer.unsequencedWindow.testBit index = false →
      (state = PeerState.connected →
        ∃ ch1 d1,
          peer_queue_incoming_command state totalWaitingData maximumWaitingData ch
              dispatchedCommands cmd 0 = QueueResult.queued ch1 d1 ∧
          enet_protocol_handle_send_unsequenced channelCount channelID state maximumPacketSize
              dataLength totalWaitingData maximumWaitingData peer ch dispatchedCommands cmd g16 =
            some ({ peer with
                unsequencedWindow := peer.unsequencedWindow ||| (1 <<< index) }, ch1, d1)) ∧
      (state = PeerState.disconnectLater →
        enet_protocol_handle_send_unsequenced channelCount channelID state maximumPacketSize
            dataLength totalWaitingData maximumWaitingData peer ch dispatchedCommands cmd g16 =
          some ({ peer with
              unsequencedWindow := peer.unsequencedWindow ||| (1 <<< index) }, ch,
            dispatchedCommands))) ∧
    (∀ (q : UnseqPeer) (ch2 : Channel) (d2 : List IncomingCommand),
      q.incomingUnsequencedGroup = g16 - index →
      q.unsequencedWindow.testBit index = true →
      enet_protocol_handle_send_unsequenced channelCount channelID state maximumPacketSize
          dataLength totalWaitingData maximumWaitingData q ch2 d2 cmd g16 =
        some (q, ch2, d2)) := by
  subst hidx
  subst hlift
  have hv1 : ¬ (channelCount ≤ channelID ∨
      (state ≠ PeerState.connected ∧ state ≠ PeerState.disconnectLater)) := by
    rintro (h | ⟨h1, h2⟩)
    · omega
    · rcases hstate with h | h
      · exact h1 h
      · exact h2 h
  have hmask := unseq_mask_eq g16 peer.incomingUnsequencedGroup hg
  refine ⟨?_, ?_, ?_, ?_, ?_⟩
  · intro hr
    rw [enet_protocol_handle_send_unsequenced]
    rw [if_neg hv1, if_neg (Nat.not_lt.2 hdl)]
    simp only [PEER_UNSEQUENCED_WINDOW_SIZE, PEER_FREE_UNSEQUENCED_WINDOWS]
    rw [if_pos (by omega :
      peer.incomingUnsequencedGroup + 32 * 1024 ≤
        (if g16 < peer.incomingUnsequencedGroup then g16 + 65536 else g16))]
  · intro hr heq hbit
    exact unseq_drop_duplicate channelCount channelID state maximumPacketSize dataLength
      totalWaitingData maximumWaitingData peer ch dispatchedCommands cmd g16 hch hstate hdl hg
      heq.symm hbit
  · intro hr hne
    constructor
    · intro hconn
      subst hconn
      obtain ⟨ch1, d1, hq⟩ := queue_unsequenced_connected totalWaitingData maximumWaitingData
        ch dispatchedCommands cmd hnum htw
      refine ⟨ch1, d1, hq, ?_⟩
      simp only [enet_protocol_handle_send_unsequenced, PEER_UNSEQUENCED_WINDOW_SIZE,
        PEER_FREE_UNSEQUENCED_WINDOWS]
      rw [if_neg hv1, if_neg (Nat.not_lt.2 hdl), if_neg (by omega :
        ¬ peer.incomingUnsequencedGroup + 32 * 1024 ≤
          (if g16 < peer.incomingUnsequencedGroup then g16 + 65536 else g16)), hmask,
        if_pos hne, hq]
      simp [Nat.zero_or]
    · intro hdlater
      subst hdlater
      simp only [enet_protocol_handle_send_unsequenced, PEER_UNSEQUENCED_WINDOW_SIZE,
        PEER_FREE_UNSEQUENCED_WINDOWS]
      rw [if_neg hv1, if_neg (Nat.not_lt.2 hdl), if_neg (by omega :
        ¬ peer.incomingUnsequencedGroup + 32 * 1024 ≤
          (if g16 < peer.incomingUnsequencedGroup then g16 + 65536 else g16)), hmask,
        if_pos hne, peer_queue_incoming_command_dl_eq]
      simp [Nat.zero_or]
  · intro hr heq hbit
    constructor
    · intro hconn
      subst hconn
      obtain ⟨ch1, d1, hq⟩ := queue_unsequenced_connected totalWaitingData maximumWaitingData
        ch dispatchedCommands cmd hnum htw
      refine ⟨ch1, d1, hq, ?_⟩
      simp only [enet_protocol_handle_send_unsequenced, PEER_UNSEQUENCED_WINDOW_SIZE,
        PEER_FREE_UNSEQUENCED_WINDOWS]
      rw [if_neg hv1, if_neg (Nat.not_lt.2 hdl), if_neg (by omega :
        ¬ peer.incomingUnsequencedGroup + 32 * 1024 ≤
          (if g16 < peer.incomingUnsequencedGroup then g16 + 65536 else g16)), hmask,
        if_neg (by omega : ¬ g16 - g16 % 1024 ≠ peer.incomingUnsequencedGroup),
        if_neg (by rw [hbit]; exact Bool.false_ne_true), hq]
    · intro hdlater
      subst hdlater
      simp only [enet_protocol_handle_send_unsequenced, PEER_UNSEQUENCED_WINDOW_SIZE,
        PEER_FREE_UNSEQUENCED_WINDOWS]
      rw [if_neg hv1, if_neg (Nat.not_lt.2 hdl), if_neg (by omega :
        ¬ peer.incomingUnsequencedGroup + 32 * 1024 ≤
          (if g16 < peer.incomingUnsequencedGroup then g16 + 65536 else g16)), hmask,
        if_neg (by omega : ¬ g16 - g16 % 1024 ≠ peer.incomingUnsequencedGroup),
        if_neg (by rw [hbit]; exact Bool.false_ne_true), peer_queue_incoming_command_dl_eq]
      simp
  · intro q ch2 d2 hqg hbit
    exact unseq_drop_duplicate channelCount channelID state maximumPacketSize dataLength
      totalWaitingData maximumWaitingData q ch2 d2 cmd g16 hch hstate hdl hg
      (by omega) hbit

/-- Witness for `enet_protocol_handle_send_unsequenced_spec`: a connected peer
with a fresh window accepts group 0, queues the command and sets bit 0. -/
theorem enet_protocol_handle_send_unsequenced_spec_witness :
    ∃ ch1 d1,
      peer_queue_incoming_command PeerState.connected 0 1000 ⟨0, 0, [], []⟩ [] ⟨9, 0, 0⟩ 0 =
        QueueResult.queued ch1 d1 ∧
      enet_protocol_handle_send_unsequenced 1 0 PeerState.connected 100 10 0 1000 ⟨0, 0⟩
          ⟨0, 0, [], []⟩ [] ⟨9, 0, 0⟩ 0 =
        some (⟨0, 0 ||| (1 <<< 0)⟩, ch1, d1) :=
  ((enet_protocol_handle_send_unsequenced_spec 1 0 PeerState.connected 100 10 0 1000 ⟨0, 0⟩
      ⟨0, 0, [], []⟩ [] ⟨9, 0, 0⟩ 0 0 0 (by decide) (Or.inl rfl) (by decide) (by decide)
      (by decide) (by decide) (by decide) (by decide) (by decide)).2.2.2.1 (by decide)
      (by decide) (by decide)).1 rfl

/-- Counterexample to C3 as stated: a `DISCONNECT_LATER` peer receiving a fresh
unsequenced group.  The handler returns 0 and sets the replay bit, but the
command is *not* queued: the channel and dispatch queue come back unchanged
(`peer_queue_incoming_command` discarded the payload), contradicting the
claim's "otherwise the command is queued and its bit set" for this state. -/
theorem enet_protocol_handle_send_unsequenced_claim_counterexample :
    enet_protocol_handle_send_unsequenced 1 0 PeerState.disconnectLater 100 10 0 1000
        ⟨0, 0⟩ ⟨0, 0, [], []⟩ [] ⟨9, 0, 0⟩ 0 =
      some (⟨0, 1⟩, ⟨0, 0, [], []⟩, []) := by
  decide

/-- Witness for `used_reliable_windows_invariant`: after a first send of
sequence number 0 followed by its retirement, window 0's bit and count agree. -/
theorem used_reliable_windows_invariant_witness :
    ((removeSentReliableWindow (checkOutgoingMarkFirstSend channelWindowsInit 0)
        0).usedReliableWindows.testBit 0 ↔
      0 < (removeSentReliableWindow (checkOutgoingMarkFirstSend channelWindowsInit 0)
        0).reliableWindows.getD 0 0) :=
  used_reliable_windows_invariant _
    (ChannelWindowsReachable.retire _ 0
      (ChannelWindowsReachable.send _ 0 ChannelWindowsReachable.init (by decide) (by decide))
      (by decide))
    0 (by decide)

/-- Wrap-around distance of a 16-bit sequence number `x` ahead of the baseline
`s`: the delivery-order key realised by the backward scans of
`peer_queue_incoming_command` (elements below the baseline are treated as
having wrapped past it). -/
def wrapDist (s x : Nat) : Nat := (x + (U16 - s % U16)) % U16

theorem wrapDist_eq (s x : Nat) (hs : s < U16) (hx : x < U16) :
    wrapDist s x = if s ≤ x then x - s else x + U16 - s := by
  simp only [wrapDist, U16] at *
  split <;> omega

/-- `l` is a run the scan loop of `peer_dispatch_incoming_reliable_commands`
would consume starting from baseline `irsn`: every command fully reassembled
and carrying the successor sequence number of the advancing baseline. -/
def reliableChain : Nat → List IncomingCommand → Bool
  | _, [] => true
  | irsn, c :: rest =>
    decide (c.fragmentsRemaining = 0) &&
    decide (c.reliableSequenceNumber = (irsn + 1) % U16) &&
    reliableChain (nextReliableSequence irsn c) rest

/-- The baseline after consuming the whole run `l` from baseline `irsn`. -/
def chainEnd : Nat → List IncomingCommand → Nat
  | irsn, [] => irsn
  | irsn, c :: rest => chainEnd (nextReliableSequence irsn c) rest

theorem reliableDispatchCount_spec (l : List IncomingCommand) : ∀ irsn : Nat,
    (reliableDispatchCount irsn l).2 ≤ l.length ∧
    (reliableDispatchCount irsn l).1 =
      chainEnd irsn (l.take (reliableDispatchCount irsn l).2) ∧
    reliableChain irsn (l.take (reliableDispatchCount irsn l).2) = true ∧
    ∀ k', k' ≤ l.length → reliableChain irsn (l.take k') = true →
      k' ≤ (reliableDispatchCount irsn l).2 := by
  induction l with
  | nil =>
    intro irsn
    refine ⟨Nat.le_refl 0, rfl, rfl, ?_⟩
    intro k' hk' _
    simpa [reliableDispatchCount] using hk'
  | cons c rest ih =>
    intro irsn
    by_cases hstop : 0 < c.fragmentsRemaining ∨ c.reliableSequenceNumber ≠ (irsn + 1) % U16
    · have hval : reliableDispatchCount irsn (c :: rest) = (irsn, 0) := by
        simp only [reliableDispatchCount]
        rw [if_pos hstop]
      rw [hval]
      refine ⟨Nat.zero_le _, rfl, rfl, ?_⟩
      intro k' _ hchain
      rcases k' with _ | k''
      · exact Nat.le_refl 0
      · exfalso
        rw [List.take_succ_cons] at hchain
        simp only [reliableChain, Bool.and_eq_true, decide_eq_true_eq] at hchain
        exact hstop.elim (fun h => by omega) (fun h => h hchain.1.2)
    · have hval : reliableDispatchCount irsn (c :: rest) =
          ((reliableDispatchCount (nextReliableSequence irsn c) rest).1,
           (reliableDispatchCount (nextReliableSequence irsn c) rest).2 + 1) := by
        simp only [reliableDispatchCount]
        rw [if_neg hstop]
      push_neg at hstop
      obtain ⟨hlen, hend, hchain, hmax⟩ := ih (nextReliableSequence irsn c)
      rw [hval]
      refine ⟨by simpa using Nat.succ_le_succ hlen, ?_, ?_, ?_⟩
      · rw [List.take_succ_cons]
        exact hend
      · rw [List.take_succ_cons]
        simp only [reliableChain, Bool.and_eq_true, decide_eq_true_eq]
        exact ⟨⟨by omega, hstop.2⟩, hchain⟩
      · intro k' hk' hchain'
        rcases k' with _ | k''
        · exact Nat.zero_le _
        · rw [List.take_succ_cons] at hchain'
          simp only [reliableChain, Bool.and_eq_true] at hchain'
          exact Nat.succ_le_succ (hmax k'' (by simpa using hk') hchain'.2)

theorem dispatch_reliable_characterize (ch : Channel) (disp : List IncomingCommand)
    (hue : ch.incomingUnreliableCommands = []) :
    ∃ k, k ≤ ch.incomingReliableCommands.length ∧
      reliableChain ch.incomingReliableSequenceNumber
        (ch.incomingReliableCommands.take k) = true ∧
      (∀ k', k' ≤ ch.incomingReliableCommands.length →
        reliableChain ch.incomingReliableSequenceNumber
          (ch.incomingReliableCommands.take k') = true → k' ≤ k) ∧
      peer_dispatch_incoming_reliable_commands ch disp =
        ({ ch with
            incomingReliableSequenceNumber :=
              chainEnd ch.incomingReliableSequenceNumber
                (ch.incomingReliableCommands.take k),
            incomingUnreliableSequenceNumber :=
              if k = 0 then ch.incomingUnreliableSequenceNumber else 0,
            incomingReliableCommands := ch.incomingReliableCommands.drop k },
         disp ++ ch.incomingReliableCommands.take k) := by
  obtain ⟨hlen, hend, hchain, hmax⟩ :=
    reliableDispatchCount_spec ch.incomingReliableCommands ch.incomingReliableSequenceNumber
  refine ⟨(reliableDispatchCount ch.incomingReliableSequenceNumber
    ch.incomingReliableCommands).2, hlen, hchain, hmax, ?_⟩
  by_cases hk : (reliableDispatchCount ch.incomingReliableSequenceNumber
      ch.incomingReliableCommands).2 = 0
  · simp only [peer_dispatch_incoming_reliable_commands]
    rw [if_pos hk, hk]
    simp [chainEnd]
  · simp only [peer_dispatch_incoming_reliable_commands]
    rw [if_neg hk]
    simp [hend, hk, hue]

theorem reliableInsertScan_snoc (irsn rsn : Nat) (Q : List IncomingCommand)
    (c : IncomingCommand) (hirsn : irsn < U16) (hrsn : rsn < U16)
    (hc : c.reliableSequenceNumber < U16) :
    reliableInsertScan irsn rsn ((Q ++ [c]).length - 1) (Q ++ [c]).reverse =
      (if wrapDist irsn c.reliableSequenceNumber < wrapDist irsn rsn then
        InsertPos.after Q.length
      else if wrapDist irsn c.reliableSequenceNumber = wrapDist irsn rsn then
        InsertPos.dup
      else reliableInsertScan irsn rsn (Q.length - 1) Q.reverse) := by
  have hrev : (Q ++ [c]).reverse = c :: Q.reverse := by simp
  have hlen : (Q ++ [c]).length - 1 = Q.length := by simp
  rw [hrev, hlen]
  rw [wrapDist_eq _ _ hirsn hc, wrapDist_eq _ _ hirsn hrsn]
  have hirsn' : irsn < 65536 := hirsn
  have hrsn' : rsn < 65536 := hrsn
  have hc' : c.reliableSequenceNumber < 65536 := hc
  simp only [reliableInsertScan, U16]
  split_ifs <;> first
    | rfl
    | (exfalso; omega)

theorem wrapDist_inj (s x y : Nat) (hs : s < U16) (hx : x < U16) (hy : y < U16) :
    wrapDist s x = wrapDist s y ↔ x = y := by
  rw [wrapDist_eq _ _ hs hx, wrapDist_eq _ _ hs hy]
  have hs' : s < 65536 := hs
  have hx' : x < 65536 := hx
  have hy' : y < 65536 := hy
  simp only [U16]
  split_ifs <;> omega

theorem reliableInsertScan_sorted (irsn rsn : Nat) (hirsn : irsn < U16)
    (hrsn : rsn < U16) :
    ∀ Q : List IncomingCommand,
      (∀ c ∈ Q, c.reliableSequenceNumber < U16) →
      Q.Pairwise (fun a b => wrapDist irsn a.reliableSequenceNumber <
        wrapDist irsn b.reliableSequenceNumber) →
      reliableInsertScan irsn rsn (Q.length - 1) Q.reverse =
        (if ∃ c ∈ Q, c.reliableSequenceNumber = rsn then InsertPos.dup
        else
          match Q.countP (fun c =>
              decide (wrapDist irsn c.reliableSequenceNumber < wrapDist irsn rsn)) with
          | 0 => InsertPos.front
          | j + 1 => InsertPos.after j) := by
  intro Q
  induction Q using List.reverseRecOn with
  | nil =>
    intro _ _
    simp [reliableInsertScan]
  | append_singleton Q c ih =>
    intro hq hsort
    have hc : c.reliableSequenceNumber < U16 := hq c (by simp)
    have hq' : ∀ a ∈ Q, a.reliableSequenceNumber < U16 := fun a ha => hq a (by simp [ha])
    obtain ⟨hsortQ, -, hcross⟩ := List.pairwise_append.mp hsort
    rw [reliableInsertScan_snoc irsn rsn Q c hirsn hrsn hc]
    by_cases h1 : wrapDist irsn c.reliableSequenceNumber < wrapDist irsn rsn
    · rw [if_pos h1]
      have hall : ∀ a ∈ Q ++ [c],
          wrapDist irsn a.reliableSequenceNumber < wrapDist irsn rsn := by
        intro a ha
        rcases List.mem_append.mp ha with ha' | ha'
        · exact lt_trans (hcross a ha' c (by simp)) h1
        · have : a = c := by simpa using ha'
          rw [this]
          exact h1
      have hnodup : ¬ ∃ a ∈ Q ++ [c], a.reliableSequenceNumber = rsn := by
        rintro ⟨a, ha, hars⟩
        have := hall a ha
        rw [hars] at this
        exact lt_irrefl _ this
      rw [if_neg hnodup]
      have hcount : (Q ++ [c]).countP (fun c =>
          decide (wrapDist irsn c.reliableSequenceNumber < wrapDist irsn rsn)) =
          Q.length + 1 := by
        rw [List.countP_eq_length.mpr]
        · simp
        · intro a ha
          simpa using hall a ha
      rw [hcount]
    · by_cases h2 : wrapDist irsn c.reliableSequenceNumber = wrapDist irsn rsn
      · rw [if_neg h1, if_pos h2]
        have hcr : c.reliableSequenceNumber = rsn := (wrapDist_inj irsn _ _ hirsn hc hrsn).mp h2
        rw [if_pos ⟨c, by simp, hcr⟩]
      · rw [if_neg h1, if_neg h2, ih hq' hsortQ]
        have hcrsn : c.reliableSequenceNumber ≠ rsn := fun h => h2 (by rw [h])
        have hdup_iff : (∃ a ∈ Q ++ [c], a.reliableSequenceNumber = rsn) ↔
            (∃ a ∈ Q, a.reliableSequenceNumber = rsn) := by
          constructor
          · rintro ⟨a, ha, hars⟩
            rcases List.mem_append.mp ha with ha' | ha'
            · exact ⟨a, ha', hars⟩
            · have : a = c := by simpa using ha'
              rw [this] at hars
              exact absurd hars hcrsn
          · rintro ⟨a, ha, hars⟩
            exact ⟨a, List.mem_append.mpr (Or.inl ha), hars⟩
        have hcount : (Q ++ [c]).countP (fun c =>
            decide (wrapDist irsn c.reliableSequenceNumber < wrapDist irsn rsn)) =
            Q.countP (fun c =>
              decide (wrapDist irsn c.reliableSequenceNumber < wrapDist irsn rsn)) := by
          rw [List.countP_append]
          simp [List.countP_cons, h1]
        simp only [hdup_iff, hcount]

theorem sorted_countP_partition (irsn K : Nat) : ∀ Q : List IncomingCommand,
    Q.Pairwise (fun a b => wrapDist irsn a.reliableSequenceNumber <
      wrapDist irsn b.reliableSequenceNumber) →
    (∀ c ∈ Q, wrapDist irsn c.reliableSequenceNumber ≠ K) →
    (∀ a ∈ Q.take (Q.countP (fun c =>
        decide (wrapDist irsn c.reliableSequenceNumber < K))),
      wrapDist irsn a.reliableSequenceNumber < K) ∧
    (∀ b ∈ Q.drop (Q.countP (fun c =>
        decide (wrapDist irsn c.reliableSequenceNumber < K))),
      K < wrapDist irsn b.reliableSequenceNumber) := by
  intro Q
  induction Q with
  | nil => intro _ _; simp
  | cons c rest ih =>
    intro hsort hne
    obtain ⟨hhead, hsrest⟩ := List.pairwise_cons.mp hsort
    have hnec : wrapDist irsn c.reliableSequenceNumber ≠ K := hne c (by simp)
    have hnerest : ∀ a ∈ rest, wrapDist irsn a.reliableSequenceNumber ≠ K :=
      fun a ha => hne a (by simp [ha])
    by_cases hck : wrapDist irsn c.reliableSequenceNumber < K
    · have hcnt : (c :: rest).countP (fun c =>
          decide (wrapDist irsn c.reliableSequenceNumber < K)) =
          rest.countP (fun c =>
            decide (wrapDist irsn c.reliableSequenceNumber < K)) + 1 := by
        simp [List.countP_cons, hck]
      obtain ⟨ih1, ih2⟩ := ih hsrest hnerest
      rw [hcnt, List.take_succ_cons, List.drop_succ_cons]
      refine ⟨?_, ih2⟩
      intro a ha
      rcases List.mem_cons.mp ha with ha' | ha'
      · rw [ha']; exact hck
      · exact ih1 a ha'
    · have hKc : K < wrapDist irsn c.reliableSequenceNumber :=
        lt_of_le_of_ne (Nat.not_lt.mp hck) (Ne.symm hnec)
      have h0 : rest.countP (fun c =>
          decide (wrapDist irsn c.reliableSequenceNumber < K)) = 0 :=
        List.countP_eq_zero.mpr (fun b hb => by
          simp only [decide_eq_true_eq]
          exact Nat.not_lt.mpr (le_of_lt (lt_trans hKc (hhead b hb))))
      have hcnt : (c :: rest).countP (fun c =>
          decide (wrapDist irsn c.reliableSequenceNumber < K)) = 0 := by
        simp [List.countP_cons, h0, hck]
      rw [hcnt, List.take_zero, List.drop_zero]
      refine ⟨by simp, ?_⟩
      intro b hb
      rcases List.mem_cons.mp hb with hb' | hb'
      · rw [hb']; exact hKc
      · exact lt_trans hKc (hhead b hb')

theorem insertAt_sorted (irsn : Nat) (ic : IncomingCommand) (Q : List IncomingCommand)
    (hsort : Q.Pairwise (fun a b => wrapDist irsn a.reliableSequenceNumber <
      wrapDist irsn b.reliableSequenceNumber))
    (hne : ∀ c ∈ Q, wrapDist irsn c.reliableSequenceNumber ≠
      wrapDist irsn ic.reliableSequenceNumber) :
    (insertAt (Q.countP (fun c => decide (wrapDist irsn c.reliableSequenceNumber <
        wrapDist irsn ic.reliableSequenceNumber))) ic Q).Pairwise
      (fun a b => wrapDist irsn a.reliableSequenceNumber <
        wrapDist irsn b.reliableSequenceNumber) := by
  obtain ⟨h1, h2⟩ := sorted_countP_partition irsn
    (wrapDist irsn ic.reliableSequenceNumber) Q hsort hne
  rw [insertAt, List.pairwise_append]
  refine ⟨hsort.sublist (List.take_sublist _ _), ?_, ?_⟩
  · rw [List.pairwise_cons]
    exact ⟨fun b hb => h2 b hb, hsort.sublist (List.drop_sublist _ _)⟩
  · intro a ha b hb
    rcases List.mem_cons.mp hb with hb' | hb'
    · rw [hb']; exact h1 a ha
    · exact lt_trans (h1 a ha) (h2 b hb')

theorem queue_reliable_characterize
    (totalWaitingData maximumWaitingData : Nat) (ch : Channel)
    (disp : List IncomingCommand) (cmd : ProtocolCmd) (fragmentCount : Nat)
    (hnum : cmd.commandNumber = PROTOCOL_COMMAND_SEND_RELIABLE)
    (hirsn : ch.incomingReliableSequenceNumber < U16)
    (hrsn : cmd.reliableSequenceNumber < U16)
    (hne : cmd.reliableSequenceNumber ≠ ch.incomingReliableSequenceNumber)
    (hwin : reliableWindowOpen ch.incomingReliableSequenceNumber cmd.reliableSequenceNumber)
    (hq : ∀ c ∈ ch.incomingReliableCommands, c.reliableSequenceNumber < U16)
    (hsort : ch.incomingReliableCommands.Pairwise
      (fun a b => wrapDist ch.incomingReliableSequenceNumber a.reliableSequenceNumber <
        wrapDist ch.incomingReliableSequenceNumber b.reliableSequenceNumber))
    (htw : totalWaitingData < maximumWaitingData)
    (hfc : fragmentCount ≤ PROTOCOL_MAXIMUM_FRAGMENT_COUNT) :
    ((∃ c ∈ ch.incomingReliableCommands,
        c.reliableSequenceNumber = cmd.reliableSequenceNumber) →
      peer_queue_incoming_command PeerState.connected totalWaitingData maximumWaitingData
          ch disp cmd fragmentCount =
        (if 0 < fragmentCount then QueueResult.failed else QueueResult.discarded)) ∧
    ((∀ c ∈ ch.incomingReliableCommands,
        c.reliableSequenceNumber ≠ cmd.reliableSequenceNumber) →
      peer_queue_incoming_command PeerState.connected totalWaitingData maximumWaitingData
          ch disp cmd fragmentCount =
        QueueResult.queued
          (peer_dispatch_incoming_reliable_commands
            { ch with
                incomingReliableCommands :=
                  insertAt
                    (ch.incomingReliableCommands.countP (fun c =>
                      decide (wrapDist ch.incomingReliableSequenceNumber
                          c.reliableSequenceNumber <
                        wrapDist ch.incomingReliableSequenceNumber
                          cmd.reliableSequenceNumber)))
                    ⟨cmd.commandNumber, cmd.reliableSequenceNumber, 0,
                      fragmentCount, fragmentCount⟩
                    ch.incomingReliableCommands } disp).1
          (peer_dispatch_incoming_reliable_commands
            { ch with
                incomingReliableCommands :=
                  insertAt
                    (ch.incomingReliableCommands.countP (fun c =>
                      decide (wrapDist ch.incomingReliableSequenceNumber
                          c.reliableSequenceNumber <
                        wrapDist ch.incomingReliableSequenceNumber
                          cmd.reliableSequenceNumber)))
                    ⟨cmd.commandNumber, cmd.reliableSequenceNumber, 0,
                      fragmentCount, fragmentCount⟩
                    ch.incomingReliableCommands } disp).2) := by
  have hscan := reliableInsertScan_sorted ch.incomingReliableSequenceNumber
    cmd.reliableSequenceNumber hirsn hrsn ch.incomingReliableCommands hq hsort
  have hbr : peer_queue_incoming_command PeerState.connected totalWaitingData
      maximumWaitingData ch disp cmd fragmentCount =
      (match reliableInsertScan ch.incomingReliableSequenceNumber
          cmd.reliableSequenceNumber (ch.incomingReliableCommands.length - 1)
          ch.incomingReliableCommands.reverse with
        | InsertPos.dup =>
          if 0 < fragmentCount then QueueResult.failed else QueueResult.discarded
        | InsertPos.front =>
          QueueResult.queued
            (peer_dispatch_incoming_reliable_commands
              { ch with
                  incomingReliableCommands :=
                    insertAt 0
                      ⟨cmd.commandNumber, cmd.reliableSequenceNumber, 0,
                        fragmentCount, fragmentCount⟩
                      ch.incomingReliableCommands } disp).1
            (peer_dispatch_incoming_reliable_commands
              { ch with
                  incomingReliableCommands :=
                    insertAt 0
                      ⟨cmd.commandNumber, cmd.reliableSequenceNumber, 0,
                        fragmentCount, fragmentCount⟩
                      ch.incomingReliableCommands } disp).2
        | InsertPos.after j =>
          QueueResult.queued
            (peer_dispatch_incoming_reliable_commands
              { ch with
                  incomingReliableCommands :=
                    insertAt (j + 1)
                      ⟨cmd.commandNumber, cmd.reliableSequenceNumber, 0,
                        fragmentCount, fragmentCount⟩
                      ch.incomingReliableCommands } disp).1
            (peer_dispatch_incoming_reliable_commands
              { ch with
                  incomingReliableCommands :=
                    insertAt (j + 1)
                      ⟨cmd.commandNumber, cmd.reliableSequenceNumber, 0,
                        fragmentCount, fragmentCount⟩
                      ch.incomingReliableCommands } disp).2) := by
    rw [peer_queue_incoming_command]
    rw [if_neg (by decide : ¬ (PeerState.connected = PeerState.disconnectLater))]
    simp only [hnum, PROTOCOL_COMMAND_SEND_RELIABLE, PROTOCOL_COMMAND_SEND_UNSEQUENCED,
      PROTOCOL_COMMAND_SEND_UNRELIABLE, PROTOCOL_COMMAND_SEND_FRAGMENT,
      PROTOCOL_COMMAND_SEND_UNRELIABLE_FRAGMENT]
    norm_num
    rw [if_pos hwin, if_neg hne]
    rcases reliableInsertScan ch.incomingReliableSequenceNumber
        cmd.reliableSequenceNumber (ch.incomingReliableCommands.length - 1)
        ch.incomingReliableCommands.reverse with _ | _ | j
    · rfl
    · rw [if_neg (Nat.not_le.mpr htw), if_neg (Nat.not_lt.mpr hfc)]
    · simp only [if_neg (Nat.not_le.mpr htw), if_neg (Nat.not_lt.mpr hfc)]
  constructor
  · rintro ⟨c0, hc0, hc0eq⟩
    rw [hbr, hscan, if_pos ⟨c0, hc0, hc0eq⟩]
  · intro hnodup
    have hnodup' : ¬ ∃ c ∈ ch.incomingReliableCommands,
        c.reliableSequenceNumber = cmd.reliableSequenceNumber := by
      rintro ⟨c0, hc0, hc0eq⟩
      exact hnodup c0 hc0 hc0eq
    rw [hbr, hscan, if_neg hnodup']
    rcases hcnt : ch.incomingReliableCommands.countP (fun c =>
        decide (wrapDist ch.incomingReliableSequenceNumber c.reliableSequenceNumber <
          wrapDist ch.incomingReliableSequenceNumber cmd.reliableSequenceNumber)) with
      _ | j
    · rw [hcnt]
    · rw [hcnt]

/-- C1: reliable commands are delivered strictly in sequence-number order
(16-bit wrap order measured by `wrapDist` from the channel baseline).
Part 1: `peer_dispatch_incoming_reliable_commands` splices exactly a maximal
contiguous prefix of the reliable queue onto `dispatchedCommands` — every
spliced command is fully reassembled and carries the successor sequence number
of the advancing baseline (`reliableChain`), the baseline advances to
`chainEnd` (with the extra `fragmentCount - 1` for fragments), the unreliable
baseline resets to 0 when anything is dispatched, and the spliced prefix
preserves any ordering `R` of the queue — so commands reach the application in
queue order.  Part 2: for a connected peer, `peer_queue_incoming_command`
discards an incoming reliable command whose sequence number is already present
in the queue, and otherwise inserts it at its ordered position — the number of
queued commands strictly closer to the baseline — keeping the queue sorted in
wrap order, then dispatches.  Together: a command with sequence number `s` is
never dispatched before a command with an earlier sequence number on the same
channel. -/
theorem peer_dispatch_incoming_reliable_commands_spec :
    (∀ (ch : Channel) (disp : List IncomingCommand),
      ch.incomingUnreliableCommands = [] →
      ∃ k, k ≤ ch.incomingReliableCommands.length ∧
        reliableChain ch.incomingReliableSequenceNumber
          (ch.incomingReliableCommands.take k) = true ∧
        (∀ k', k' ≤ ch.incomingReliableCommands.length →
          reliableChain ch.incomingReliableSequenceNumber
            (ch.incomingReliableCommands.take k') = true → k' ≤ k) ∧
        peer_dispatch_incoming_reliable_commands ch disp =
          ({ ch with
              incomingReliableSequenceNumber :=
                chainEnd ch.incomingReliableSequenceNumber
                  (ch.incomingReliableCommands.take k),
              incomingUnreliableSequenceNumber :=
                if k = 0 then ch.incomingUnreliableSequenceNumber else 0,
              incomingReliableCommands := ch.incomingReliableCommands.drop k },
           disp ++ ch.incomingReliableCommands.take k) ∧
        (∀ R : IncomingCommand → IncomingCommand → Prop,
          ch.incomingReliableCommands.Pairwise R →
          (ch.incomingReliableCommands.take k).Pairwise R)) ∧
    (∀ (totalWaitingData maximumWaitingData : Nat) (ch : Channel)
        (disp : List IncomingCommand) (cmd : ProtocolCmd) (fragmentCount : Nat),
      cmd.commandNumber = PROTOCOL_COMMAND_SEND_RELIABLE →
      ch.incomingReliableSequenceNumber < U16 →
      cmd.reliableSequenceNumber < U16 →
      cmd.reliableSequenceNumber ≠ ch.incomingReliableSequenceNumber →
      reliableWindowOpen ch.incomingReliableSequenceNumber cmd.reliableSequenceNumber →
      (∀ c ∈ ch.incomingReliableCommands, c.reliableSequenceNumber < U16) →
      ch.incomingReliableCommands.Pairwise
        (fun a b => wrapDist ch.incomingReliableSequenceNumber a.reliableSequenceNumber <
          wrapDist ch.incomingReliableSequenceNumber b.reliableSequenceNumber) →
      totalWaitingData < maximumWaitingData →
      fragmentCount ≤ PROTOCOL_MAXIMUM_FRAGMENT_COUNT →
      ((∃ c ∈ ch.incomingReliableCommands,
          c.reliableSequenceNumber = cmd.reliableSequenceNumber) →
        peer_queue_incoming_command PeerState.connected totalWaitingData
            maximumWaitingData ch disp cmd fragmentCount =
          (if 0 < fragmentCount then QueueResult.failed else QueueResult.discarded)) ∧
      ((∀ c ∈ ch.incomingReliableCommands,
          c.reliableSequenceNumber ≠ cmd.reliableSequenceNumber) →
        (insertAt
            (ch.incomingReliableCommands.countP (fun c =>
              decide (wrapDist ch.incomingReliableSequenceNumber
                  c.reliableSequenceNumber <
                wrapDist ch.incomingReliableSequenceNumber
                  cmd.reliableSequenceNumber)))
            ⟨cmd.commandNumber, cmd.reliableSequenceNumber, 0,
              fragmentCount, fragmentCount⟩
            ch.incomingReliableCommands).Pairwise
          (fun a b => wrapDist ch.incomingReliableSequenceNumber
              a.reliableSequenceNumber <
            wrapDist ch.incomingReliableSequenceNumber b.reliableSequenceNumber) ∧
        peer_queue_incoming_command PeerState.connected totalWaitingData
            maximumWaitingData ch disp cmd fragmentCount =
          QueueResult.queued
            (peer_dispatch_incoming_reliable_commands
              { ch with
                  incomingReliableCommands :=
                    insertAt
                      (ch.incomingReliableCommands.countP (fun c =>
                        decide (wrapDist ch.incomingReliableSequenceNumber
                            c.reliableSequenceNumber <
                          wrapDist ch.incomingReliableSequenceNumber
                            cmd.reliableSequenceNumber)))
                      ⟨cmd.commandNumber, cmd.reliableSequenceNumber, 0,
                        fragmentCount, fragmentCount⟩
                      ch.incomingReliableCommands } disp).1
            (peer_dispatch_incoming_reliable_commands
              { ch with
                  incomingReliableCommands :=
                    insertAt
                      (ch.incomingReliableCommands.countP (fun c =>
                        decide (wrapDist ch.incomingReliableSequenceNumber
                            c.reliableSequenceNumber <
                          wrapDist ch.incomingReliableSequenceNumber
                            cmd.reliableSequenceNumber)))
                      ⟨cmd.commandNumber, cmd.reliableSequenceNumber, 0,
                        fragmentCount, fragmentCount⟩
                      ch.incomingReliableCommands } disp).2)) := by
  constructor
  · intro ch disp hue
    obtain ⟨k, hlen, hchain, hmax, heq⟩ := dispatch_reliable_characterize ch disp hue
    exact ⟨k, hlen, hchain, hmax, heq,
      fun R hR => hR.sublist (List.take_sublist _ _)⟩
  · intro totalWaitingData maximumWaitingData ch disp cmd fragmentCount hnum hirsn hrsn
      hne hwin hq hsort htw hfc
    obtain ⟨hdup, hnodup⟩ := queue_reliable_characterize totalWaitingData
      maximumWaitingData ch disp cmd fragmentCount hnum hirsn hrsn hne hwin hq hsort htw hfc
    refine ⟨hdup, fun hfresh => ⟨?_, hnodup hfresh⟩⟩
    exact insertAt_sorted ch.incomingReliableSequenceNumber
      ⟨cmd.commandNumber, cmd.reliableSequenceNumber, 0, fragmentCount, fragmentCount⟩
      ch.incomingReliableCommands hsort
      (fun c hc h => hfresh c hc
        ((wrapDist_inj ch.incomingReliableSequenceNumber _ _ hirsn (hq c hc) hrsn).mp h))

/-- Witness for `peer_dispatch_incoming_reliable_commands_spec`: a channel at
baseline 0 holding the single complete command 1 dispatches it; at baseline 10
with queue `[11, 13]`, queueing sequence number 13 again is discarded as a
duplicate while fresh sequence number 12 is inserted between 11 and 13 keeping
the queue sorted. -/
theorem peer_dispatch_incoming_reliable_commands_spec_witness :
    (∃ k, k ≤ ([⟨6, 1, 0, 0, 0⟩] : List IncomingCommand).length ∧
      reliableChain 0 (([⟨6, 1, 0, 0, 0⟩] : List IncomingCommand).take k) = true ∧
      (∀ k', k' ≤ ([⟨6, 1, 0, 0, 0⟩] : List IncomingCommand).length →
        reliableChain 0 (([⟨6, 1, 0, 0, 0⟩] : List IncomingCommand).take k') = true →
        k' ≤ k) ∧
      peer_dispatch_incoming_reliable_commands ⟨0, 7, [⟨6, 1, 0, 0, 0⟩], []⟩ [] =
        (⟨chainEnd 0 (([⟨6, 1, 0, 0, 0⟩] : List IncomingCommand).take k),
          if k = 0 then 7 else 0,
          ([⟨6, 1, 0, 0, 0⟩] : List IncomingCommand).drop k, []⟩,
         [] ++ ([⟨6, 1, 0, 0, 0⟩] : List IncomingCommand).take k) ∧
      (∀ R : IncomingCommand → IncomingCommand → Prop,
        ([⟨6, 1, 0, 0, 0⟩] : List IncomingCommand).Pairwise R →
        (([⟨6, 1, 0, 0, 0⟩] : List IncomingCommand).take k).Pairwise R)) ∧
    (peer_queue_incoming_command PeerState.connected 0 100
        ⟨10, 0, [⟨6, 11, 0, 0, 0⟩, ⟨6, 13, 0, 0, 0⟩], []⟩ [] ⟨6, 13, 0⟩ 0 =
      (if 0 < 0 then QueueResult.failed else QueueResult.discarded)) ∧
    ((insertAt
        (([⟨6, 11, 0, 0, 0⟩, ⟨6, 13, 0, 0, 0⟩] : List IncomingCommand).countP (fun c =>
          decide (wrapDist 10 c.reliableSequenceNumber < wrapDist 10 12)))
        ⟨6, 12, 0, 0, 0⟩
        [⟨6, 11, 0, 0, 0⟩, ⟨6, 13, 0, 0, 0⟩]).Pairwise
      (fun a b => wrapDist 10 a.reliableSequenceNumber <
        wrapDist 10 b.reliableSequenceNumber) ∧
    peer_queue_incoming_command PeerState.connected 0 100
        ⟨10, 0, [⟨6, 11, 0, 0, 0⟩, ⟨6, 13, 0, 0, 0⟩], []⟩ [] ⟨6, 12, 0⟩ 0 =
      QueueResult.queued
        (peer_dispatch_incoming_reliable_commands
          ⟨10, 0,
            insertAt
              (([⟨6, 11, 0, 0, 0⟩, ⟨6, 13, 0, 0, 0⟩] : List IncomingCommand).countP
                (fun c =>
                  decide (wrapDist 10 c.reliableSequenceNumber < wrapDist 10 12)))
              ⟨6, 12, 0, 0, 0⟩
              [⟨6, 11, 0, 0, 0⟩, ⟨6, 13, 0, 0, 0⟩], []⟩ []).1
        (peer_dispatch_incoming_reliable_commands
          ⟨10, 0,
            insertAt
              (([⟨6, 11, 0, 0, 0⟩, ⟨6, 13, 0, 0, 0⟩] : List IncomingCommand).countP
                (fun c =>
                  decide (wrapDist 10 c.reliableSequenceNumber < wrapDist 10 12)))
              ⟨6, 12, 0, 0, 0⟩
              [⟨6, 11, 0, 0, 0⟩, ⟨6, 13, 0, 0, 0⟩], []⟩ []).2) :=
  ⟨peer_dispatch_incoming_reliable_commands_spec.1 ⟨0, 7, [⟨6, 1, 0, 0, 0⟩], []⟩ [] rfl,
   (peer_dispatch_incoming_reliable_commands_spec.2 0 100
      ⟨10, 0, [⟨6, 11, 0, 0, 0⟩, ⟨6, 13, 0, 0, 0⟩], []⟩ [] ⟨6, 13, 0⟩ 0 rfl (by decide)
      (by decide) (by decide) (by decide) (by decide) (by decide) (by decide)
      (by decide)).1 ⟨⟨6, 13, 0, 0, 0⟩, by decide, rfl⟩,
   (peer_dispatch_incoming_reliable_commands_spec.2 0 100
      ⟨10, 0, [⟨6, 11, 0, 0, 0⟩, ⟨6, 13, 0, 0, 0⟩], []⟩ [] ⟨6, 12, 0⟩ 0 rfl (by decide)
      (by decide) (by decide) (by decide) (by decide) (by decide) (by decide)
      (by decide)).2 (by decide)⟩

end ENet
